import Mathlib

/-
  Verification development for the `codeaudit` static source-code analyzer.

  This file is a shallow embedding, in Lean 4, of the core of the analyzer:
  the shared text-metric engines (`internal/adapter/parser/metrics.go`), the
  two language parsers (C heuristic scanner and the Go parser's aggregation
  logic), the aggregation pass (`buildProjectReport`, `buildHotspots`,
  `annotateFunctionCoupling`, `annotateFunctionHotspots`), the orchestrator
  (`AnalyzeProjectUseCase.Execute`, determinized to a sequential schedule:
  the worker pool only permutes the collected files/warnings and the claims
  settled here are schedule independent), the git CLI collaborator
  (`GitCLI.CollectFileMetrics`) and the report use case
  (`GenerateReportUseCase.Execute`).

  Conventions:
  * Go strings are embedded as `List Char` (`Str`); a source file is a
    `List Str` of its lines.
  * Go `int` counters are embedded as `Nat`/`Int` (no counter in this code
    can overflow on representable inputs).
  * Go `float64` values are embedded as real numbers (`ℝ`) for derived
    scores, and as exact rationals (`ℚ`) for ratio fields; the one place
    where the spec makes a claim about the bit-level float computation
    (the 95th-percentile index) is modeled with an explicit IEEE-754
    binary64 round-to-nearest-even semantics over `ℚ`.
  * External collaborators (file system scanner, reader, go/ast syntax
    trees, git process output, storage, renderers, `filepath.Rel`) are
    parameters of the embedding, exactly as they are interfaces in the
    source.
-/

namespace CodeAudit

set_option maxRecDepth 2000

/-- Go strings, embedded as lists of characters. -/
abbrev Str := List Char

/-- Turn a Lean string literal into a `Str`. -/
def strL (s : String) : Str := s.toList

/-- Go regexp `\w`: `[0-9A-Za-z_]`. -/
def isWordChar (c : Char) : Bool :=
  c.isAlphanum || c = '_'

/-- `strings.TrimSpace`: drop leading and trailing whitespace. -/
def trimL (s : Str) : Str :=
  ((s.dropWhile Char.isWhitespace).reverse.dropWhile Char.isWhitespace).reverse

/-- `strings.HasPrefix s pre` (argument order: the pattern first). -/
def startsWithL (pat s : Str) : Bool :=
  pat.isPrefixOf s

/-- `strings.Index s sub`: index of the first occurrence of `sub` in `s`,
`none` when absent (`-1` in Go). -/
def findSubIdx (sub : Str) : Str → Option Nat
  | [] => if sub.isEmpty then some 0 else none
  | c :: rest =>
    if sub.isPrefixOf (c :: rest) then some 0
    else match findSubIdx sub rest with
      | some i => some (i + 1)
      | none => none

/-- `strings.Contains s sub`. -/
def containsSub (sub s : Str) : Bool :=
  (findSubIdx sub s).isSome

/-- `strings.Count s sub` for nonempty `sub`: number of non-overlapping
occurrences, scanning left to right. -/
def countSubL (sub : Str) : Str → Nat
  | [] => 0
  | c :: rest =>
    if sub.isPrefixOf (c :: rest) ∧ 1 ≤ sub.length
    then 1 + countSubL sub (rest.drop (sub.length - 1))
    else countSubL sub rest
termination_by s => s.length
decreasing_by
  · simp only [List.length_drop, List.length_cons]
    omega
  · simp [List.length_cons]

/-- The decision keywords of the C-oriented engine
(regexp `\b(if|for|while|case|switch)\b`). -/
def decisionKeywords : List Str :=
  [strL "if", strL "for", strL "while", strL "case", strL "switch"]

/-- One keyword of the alternation matches at the head of `s`, with a word
boundary on each side (`prev` is the character just before `s`, if any). -/
def keywordMatchAt (prev : Option Char) (s : Str) (w : Str) : Bool :=
  w.isPrefixOf s
    && (match prev with
        | some c => !isWordChar c
        | none => true)
    && (match s.drop w.length with
        | [] => true
        | c :: _ => !isWordChar c)

/-- Count of the matches of `\b(if|for|while|case|switch)\b` in a line.
Word-boundary-delimited matches of distinct keywords are pairwise disjoint,
so the leftmost non-overlapping match count of the Go regexp equals the
number of positions at which some keyword matches with boundaries. -/
def countDecisionsFrom : Option Char → Str → Nat
  | _, [] => 0
  | prev, c :: rest =>
    (if decisionKeywords.any (keywordMatchAt prev (c :: rest)) then 1 else 0)
      + countDecisionsFrom (some c) rest

/-- `len(decisionKeywords.FindAllStringSubmatch(code, -1))`. -/
def countDecisionKeywords (s : Str) : Nat :=
  countDecisionsFrom none s

/-- `len(boolOps.FindAllStringSubmatch(code, -1))` for the regexp
`&&|\|\||\?`: non-overlapping leftmost matches, trying the alternatives in
order at each position. -/
def countBoolOpsC : Str → Nat
  | '&' :: '&' :: rest => 1 + countBoolOpsC rest
  | '|' :: '|' :: rest => 1 + countBoolOpsC rest
  | '?' :: rest => 1 + countBoolOpsC rest
  | _ :: rest => countBoolOpsC rest
  | [] => 0

/-- State of the `stripStringLiterals` character scan. -/
structure StripState where
  out : Str
  inSingle : Bool
  inDouble : Bool
  esc : Bool

/-- One character step of `stripStringLiterals`. -/
def stripStep (st : StripState) (r : Char) : StripState :=
  if st.esc then { st with esc := false }
  else if r = '\\' then
    if st.inSingle || st.inDouble then { st with esc := true }
    else { st with out := r :: st.out }
  else if r = '\'' then
    if !st.inDouble then { st with inSingle := !st.inSingle }
    else { st with out := r :: st.out }
  else if r = '"' then
    if !st.inSingle then { st with inDouble := !st.inDouble }
    else { st with out := r :: st.out }
  else if !st.inSingle && !st.inDouble then { st with out := r :: st.out }
  else st

/-- `stripStringLiterals` from `metrics.go`: removes the contents of
single- and double-quoted literals, respecting backslash escapes. -/
def stripStringLiterals (s : Str) : Str :=
  (s.foldl stripStep ⟨[], false, false, false⟩).out.reverse

/-- Result/state record of `computeTextMetricsForRange` (the named return
values of the Go function; `locals` is declared but never assigned by this
engine and therefore stays `0`). -/
structure CRangeState where
  nloc : Nat
  ccn : Nat
  cognitive : Nat
  maxNesting : Nat
  locals : Nat
  commentLines : Nat
  blockDepth : Nat
  inBlockComment : Bool
deriving Repr, DecidableEq

/-- The code tail of one loop iteration of `computeTextMetricsForRange`
(after comment handling), on the already re-trimmed line content. -/
def cRangeStepCode (st : CRangeState) (trimmed : Str) : CRangeState :=
  if startsWithL (strL "#") trimmed then st
  else
    let st := { st with nloc := st.nloc + 1 }
    let code := stripStringLiterals trimmed
    let decisions := countDecisionKeywords code
    let bools := countBoolOpsC code
    let st := { st with ccn := st.ccn + (decisions + bools) }
    let opens := code.count '\x7b'
    let closes := code.count '\x7d'
    -- Go adds `opens - closes` to the int depth and clamps at 0; with the
    -- addition performed first this is exactly saturating Nat subtraction.
    let bd := st.blockDepth + opens - closes
    { st with blockDepth := bd,
              maxNesting := max st.maxNesting bd,
              cognitive := st.cognitive + (decisions + bd) }

/-- The `//` line-comment handling of one iteration of
`computeTextMetricsForRange`. -/
def cRangeStepLine (st : CRangeState) (trimmed : Str) : CRangeState :=
  match findSubIdx (strL "//") trimmed with
  | some idx =>
    if (trimL (trimmed.take idx)).isEmpty then
      { st with commentLines := st.commentLines + 1 }
    else
      let st := { st with commentLines := st.commentLines + 1 }
      let t := trimL (trimmed.take idx)
      if t.isEmpty then st else cRangeStepCode st t
  | none => cRangeStepCode st trimmed

/-- The `/* ... */` handling of one iteration of
`computeTextMetricsForRange`. -/
def cRangeStepBlock (st : CRangeState) (trimmed : Str) : CRangeState :=
  match findSubIdx (strL "/*") trimmed with
  | some idx =>
    let st := { st with commentLines := st.commentLines + 1 }
    if !containsSub (strL "*/") (trimmed.drop (idx + 2)) then
      { st with inBlockComment := true }
    else
      let t := trimL (trimmed.take idx)
      if t.isEmpty then st else cRangeStepLine st t
  | none => cRangeStepLine st trimmed

/-- One full loop iteration of `computeTextMetricsForRange` on one line. -/
def cRangeStep (st : CRangeState) (line : Str) : CRangeState :=
  let trimmed := trimL line
  if trimmed.isEmpty then st
  else if st.inBlockComment then
    { st with commentLines := st.commentLines + 1,
              inBlockComment := !containsSub (strL "*/") trimmed }
  else cRangeStepBlock st trimmed

/-- `computeTextMetricsForRange(lines, startLine, endLine)` from
`metrics.go`: the C-oriented shared metric engine. Iterates the lines with
index `i` in `[startLine-1, endLine)` after clamping `startLine ≥ 1` and
`endLine ≤ len(lines)`. -/
def computeTextMetricsForRange (lines : List Str) (startLine endLine : Nat) :
    CRangeState :=
  let s := if startLine < 1 then 1 else startLine
  let e := if lines.length < endLine then lines.length else endLine
  ((lines.take e).drop (s - 1)).foldl cRangeStep
    { nloc := 0, ccn := 1, cognitive := 0, maxNesting := 0, locals := 0,
      commentLines := 0, blockDepth := 0, inBlockComment := false }

/-- `lineRange` from the Go parser (fields `Start`/`End`). -/
structure LineRange where
  start : Nat
  stop : Nat
deriving Repr, DecidableEq

/-- `inExcluded` from `computeTextMetricsForRangeWithExcludes`. -/
def inExcludedRanges (excludes : List LineRange) (lineNo : Nat) : Bool :=
  excludes.any (fun r => decide (r.start ≤ lineNo) && decide (lineNo ≤ r.stop))

/-- Result/state record of `computeTextMetricsForRangeWithExcludes`. -/
structure GoRangeState where
  nloc : Nat
  ccn : Nat
  cognitive : Nat
  maxNesting : Nat
  locals : Nat
  commentLines : Nat
  depth : Nat
  inBlock : Bool
deriving Repr, DecidableEq

/-- The per-character brace walk of the Go-oriented engine: `\x7b` increments
the depth (tracking the maximum), `\x7d` decrements it when positive. -/
def braceWalk : Nat × Nat → Str → Nat × Nat
  | dm, [] => dm
  | (d, m), c :: rest =>
    if c = '\x7b' then braceWalk (d + 1, max m (d + 1)) rest
    else if c = '\x7d' then braceWalk (if 0 < d then d - 1 else d, m) rest
    else braceWalk (d, m) rest

/-- The code tail of one iteration of
`computeTextMetricsForRangeWithExcludes` (counting section). -/
def goStepCode (st : GoRangeState) (line trimmed : Str) : GoRangeState :=
  let st := { st with nloc := st.nloc + 1 }
  let dm := braceWalk (st.depth, st.maxNesting) line
  let depth := dm.1
  let st := { st with depth := dm.1, maxNesting := dm.2 }
  let ccn1 :=
    if containsSub (strL "else if ") trimmed then 1
    else if containsSub (strL "if ") trimmed then 1
    else 0
  let ccn2 := if containsSub (strL "for ") trimmed then 1 else 0
  let ccn3 := if containsSub (strL "switch ") trimmed then 1 else 0
  let caseCount := countSubL (strL "case ") trimmed
  let ccn5 := if containsSub (strL "default:") trimmed then 1 else 0
  let ccn6 := if containsSub (strL "goto ") trimmed then 1 else 0
  let ccnLine := ccn1 + ccn2 + ccn3 + caseCount + ccn5 + ccn6
  let bools := countSubL (strL "&&") trimmed + countSubL (strL "||") trimmed
  let cogLine := ccnLine + bools
      + (if startsWithL (strL "return ") trimmed && decide (0 < depth) then 1 else 0)
  let st := if 0 < ccnLine then { st with ccn := st.ccn + ccnLine } else st
  let st :=
    if 0 < cogLine then { st with cognitive := st.cognitive + cogLine * (1 + depth) }
    else st
  if containsSub (strL ":=") line || startsWithL (strL "var ") trimmed
  then { st with locals := st.locals + 1 }
  else st

/-- The `/*` handling of one iteration of
`computeTextMetricsForRangeWithExcludes`. -/
def goStepB (st : GoRangeState) (line trimmed : Str) : GoRangeState :=
  if startsWithL (strL "/*") trimmed then
    let st := { st with commentLines := st.commentLines + 1 }
    if !containsSub (strL "*/") trimmed then { st with inBlock := true } else st
  else goStepCode st line trimmed

/-- The inline-`//` handling of one iteration of
`computeTextMetricsForRangeWithExcludes`. -/
def goStepA (st : GoRangeState) (line trimmed : Str) : GoRangeState :=
  match findSubIdx (strL "//") trimmed with
  | some idx =>
    let codePart := trimL (trimmed.take idx)
    if codePart.isEmpty then { st with commentLines := st.commentLines + 1 }
    else goStepB st line codePart
  | none => goStepB st line trimmed

/-- One full loop iteration of `computeTextMetricsForRangeWithExcludes` on
the 0-based-indexed line `p`. -/
def goRangeStep (excludes : List LineRange) (st : GoRangeState) (p : Nat × Str) :
    GoRangeState :=
  let lineNo := p.1 + 1
  if inExcludedRanges excludes lineNo then st
  else
    let line := p.2
    let trimmed := trimL line
    if st.inBlock then
      { st with commentLines := st.commentLines + 1,
                inBlock := !containsSub (strL "*/") trimmed }
    else if trimmed.isEmpty then st
    else if startsWithL (strL "//") trimmed then
      { st with commentLines := st.commentLines + 1 }
    else goStepA st line trimmed

/-- `computeTextMetricsForRangeWithExcludes(lines, start, end, excludes)`
from the Go parser: the Go-oriented shared metric engine. Iterates the
lines with index `i` in `[start-1, end)` bounded by `len(lines)`. -/
def computeTextMetricsForRangeWithExcludes (lines : List Str) (start stop : Nat)
    (excludes : List LineRange) : GoRangeState :=
  ((lines.enum.filter
      (fun p => decide (start - 1 ≤ p.1) && decide (p.1 + 1 ≤ stop))).foldl
    (goRangeStep excludes)
    { nloc := 0, ccn := 1, cognitive := 0, maxNesting := 0, locals := 0,
      commentLines := 0, depth := 0, inBlock := false })

/-! ## Domain model (`internal/domain/model/metrics.go`) -/

/-- `model.Language` constants (only the values the parsers produce). -/
def LanguageGo : String := "go"

/-- `model.LanguageC`. -/
def LanguageC : String := "c"

/-- `model.FunctionMetrics`. `CommentDensity` (a `float64` ratio of exact
integer counts) is embedded as `ℚ`; `HotspotScore` (a `float64` involving
`math.Log1p`) as `ℝ`. -/
structure FunctionMetrics where
  Name : String
  Signature : String
  FilePath : String
  Language : String
  StartLine : Nat
  EndLine : Nat
  NLOC : Nat
  Parameters : Nat
  LocalVariables : Nat
  CCN : Nat
  CognitiveComplexity : Nat
  MaxNesting : Nat
  FanIn : Nat
  FanOut : Nat
  CommentDensity : ℚ
  HotspotScore : ℝ
  Callees : List String
  IsPublic : Bool
  IsDocumented : Bool

/-- `model.CommentMetrics`. -/
structure CommentMetrics where
  TotalLines : Nat
  CommentLines : Nat
  CommentDensity : ℚ
  PublicAPIDocPct : ℚ
deriving Repr, DecidableEq

/-- `model.CodeSmell` (the `Kind` constants are plain strings). -/
structure CodeSmell where
  Kind : String
  Description : String
  FilePath : String
  Function : String
  Line : Nat
deriving Repr, DecidableEq

/-- `model.GitFileMetrics`. -/
structure GitFileMetrics where
  FilePath : String
  LinesAdded : Nat
  LinesDeleted : Nat
  Commits : Nat
  BugfixCommits : Nat
  Authors : Nat
deriving Repr, DecidableEq

/-- `model.FileSummaryMetrics`. -/
structure FileSummaryMetrics where
  NLOC : Nat
  CCNTotal : Nat
  CCNAvgPerFunction : ℚ
  CCNMaxFunction : Nat
  FunctionsCount : Nat
  FunctionsCCNGt10 : Nat
  FunctionsCCNGt20 : Nat
deriving Repr, DecidableEq

/-- `model.FileMetrics`. -/
structure FileMetrics where
  Path : String
  Language : String
  Summary : FileSummaryMetrics
  Functions : List FunctionMetrics
  Comments : CommentMetrics
  Smells : List CodeSmell
  Git : Option GitFileMetrics

/-- `model.Hotspot` (`Score` is `CCN × ln(1+churn)`, embedded as `ℝ`). -/
structure Hotspot where
  FilePath : String
  Reason : String
  Score : ℝ
  CCN : Nat
  Churn : Nat

/-- `model.ProjectMetrics`; `float64` ratio fields are embedded as `ℚ`. -/
structure ProjectMetrics where
  TotalFiles : Nat
  TotalFunctions : Nat
  AvgCCNPerFunction : ℚ
  MaxCCNPerFunction : Nat
  FunctionsCCNGt10Pct : ℚ
  FunctionsCCNGt20Pct : ℚ
  MedianFunctionSize : ℚ
  P95FunctionSize : ℚ
  FunctionsGt50Lines : Nat
  FunctionsGt80Lines : Nat
  FunctionsGt100Lines : Nat
  AvgParamsPerFunction : ℚ
  FunctionsParamsGe5 : Nat
  CommentDensityAvg : ℚ
  GitTotalLinesAdded : Nat
  GitTotalLinesDeleted : Nat
  GitTotalCommits : Nat
deriving Repr, DecidableEq

/-- `model.MetricSummary`. -/
structure MetricSummary where
  ID : String
  Name : String
  Description : String
  Group : String
deriving Repr, DecidableEq

/-- `model.ProjectReport`. `GeneratedAt` (`time.Now().UTC()`, a wall-clock
effect with no bearing on any property here) is not embedded. -/
structure ProjectReport where
  RootPath : String
  Files : List FileMetrics
  Project : ProjectMetrics
  Hotspots : List Hotspot
  MetricMetadata : List MetricSummary
  Warnings : List String

/-! ## `estimateCommentLines` (`metrics.go`) -/

/-- State of the `estimateCommentLines` scan. -/
structure ECLState where
  count : Nat
  inBlock : Bool
deriving Repr, DecidableEq

/-- One loop iteration of `estimateCommentLines`. -/
def estimateStep (st : ECLState) (line : Str) : ECLState :=
  let trimmed := trimL line
  if trimmed.isEmpty then st
  else if st.inBlock then
    { count := st.count + 1, inBlock := !containsSub (strL "*/") trimmed }
  else if startsWithL (strL "//") trimmed then
    { st with count := st.count + 1 }
  else
    match findSubIdx (strL "/*") trimmed with
    | some idx =>
      { count := st.count + 1,
        inBlock := !containsSub (strL "*/") (trimmed.drop (idx + 2)) }
    | none => st

/-- `estimateCommentLines(lines)` from `metrics.go`. -/
def estimateCommentLines (lines : List Str) : Nat :=
  (lines.foldl estimateStep ⟨0, false⟩).count

/-! ## The C parser (`internal/adapter/parser/c_parser.go`) -/

/-- `isControlKeyword` from `c_parser.go`. -/
def isControlKeyword (n : Str) : Bool :=
  [strL "if", strL "for", strL "while", strL "switch", strL "return"].contains n

/-- `sort.Strings`: ascending lexicographic sort (byte order and code-point
order agree). -/
def sortStrings (l : List String) : List String :=
  l.insertionSort (· ≤ ·)

/-- `FindStringSubmatch` of `funcHeaderRe = \b([a-zA-Z_]\w*)\s*\([^()]*\)\s*$`,
returning capture group 1. The `$`-anchored pattern matches iff the string
ends (up to trailing whitespace) in a parenthesis group containing no
parentheses, preceded (up to whitespace) by an identifier starting with a
letter or underscore whose left neighbour is a word boundary; the leftmost
match captures exactly that identifier. -/
def matchFuncHeader (cs : Str) : Option Str :=
  match (cs.reverse).dropWhile Char.isWhitespace with
  | ')' :: rest =>
    match rest.dropWhile (fun c => !(c = '(' || c = ')')) with
    | '(' :: rest3 =>
      let identRev := (rest3.dropWhile Char.isWhitespace).takeWhile isWordChar
      match identRev.reverse with
      | [] => none
      | c :: cs2 => if c.isAlpha || c = '_' then some (c :: cs2) else none
    | _ => none
  | _ => none

/-- `strings.Count(l, "{") - strings.Count(l, "}")` as an integer. -/
def braceBalance (l : Str) : Int :=
  (l.count '\x7b' : Int) - (l.count '\x7d' : Int)

/-- All matches of `cCallRegexp = \b([a-zA-Z_]\w*)\s*\(` in a line, in
order (capture group 1 of each). Non-overlapping leftmost matching of this
pattern finds exactly the boundary-preceded identifiers that are followed,
after optional whitespace, by `(`. -/
def cCallMatchesFrom : Option Char → Str → List Str
  | _, [] => []
  | prev, c :: rest =>
    let here :=
      if (c.isAlpha || c = '_')
          && (match prev with
              | some pc => !isWordChar pc
              | none => true) then
        let run := (c :: rest).takeWhile isWordChar
        match ((c :: rest).drop run.length).dropWhile Char.isWhitespace with
        | '(' :: _ => [run]
        | _ => []
      else []
    here ++ cCallMatchesFrom (some c) rest

/-- `extractCFunctionCalls(lines, start, end)` from `c_parser.go`: collect
callee names over the line range, drop control keywords and `sizeof`,
de-duplicate (Go: a `map` used as a set) and sort ascending. -/
def extractCFunctionCalls (lines : List Str) (start stop : Nat) : List String :=
  let collected :=
    ((lines.enum.filter
        (fun p => decide (start - 1 ≤ p.1) && decide (p.1 + 1 ≤ stop))).foldl
      (fun acc q =>
        let trimmed := trimL q.2
        if startsWithL (strL "//") trimmed then acc
        else acc ++ ((cCallMatchesFrom none q.2).filter
          (fun n => !(isControlKeyword n || n == strL "sizeof"))))
      [])
  sortStrings ((collected.map fun n => String.mk n).eraseDups)

/-- Loop state of `CParser.ParseFile` (`headerStart = none` models Go's
`-1` sentinel). -/
structure CParseState where
  functions : List FunctionMetrics
  allNloc : Nat
  allCcn : Nat
  maxCcn : Nat
  gt10 : Nat
  gt20 : Nat
  inFunc : Bool
  funcStart : Nat
  funcName : Str
  braceDepth : Int
  headerBuf : Str
  headerStart : Option Nat

/-- Closing a function body in `CParser.ParseFile` (the `braceDepth <= 0`
branch): compute the metrics of lines `[funcStart, i+1]`, extract callees
and append the `FunctionMetrics`. -/
def cCloseFunction (lines : List Str) (path : String) (p : CParseState)
    (i : Nat) : CParseState :=
  let start := p.funcStart
  let stop := i + 1
  let m := computeTextMetricsForRange lines start stop
  let commentDensityFn : ℚ :=
    if 0 < m.nloc + m.commentLines
    then (m.commentLines : ℚ) / ((m.nloc + m.commentLines : Nat) : ℚ)
    else 0
  let callees := extractCFunctionCalls lines start stop
  let fn : FunctionMetrics :=
    { Name := String.mk p.funcName, Signature := String.mk p.funcName,
      FilePath := path, Language := LanguageC,
      StartLine := start, EndLine := stop,
      NLOC := m.nloc, Parameters := 0, LocalVariables := m.locals,
      CCN := m.ccn, CognitiveComplexity := m.cognitive,
      MaxNesting := m.maxNesting, FanIn := 0, FanOut := callees.length,
      CommentDensity := commentDensityFn, HotspotScore := 0,
      Callees := callees, IsPublic := false, IsDocumented := false }
  { functions := p.functions ++ [fn],
    allNloc := p.allNloc + m.nloc,
    allCcn := p.allCcn + m.ccn,
    maxCcn := max p.maxCcn m.ccn,
    gt10 := p.gt10 + (if 10 < m.ccn then 1 else 0),
    gt20 := p.gt20 + (if 20 < m.ccn then 1 else 0),
    inFunc := false, funcStart := 0, funcName := [], braceDepth := 0,
    headerBuf := p.headerBuf, headerStart := p.headerStart }

/-- The not-yet-inside-a-function branch of the `CParser.ParseFile` loop:
header-buffer accumulation and function-start detection. -/
def cParseStepOutside (lines : List Str) (p : CParseState) (i : Nat)
    (line : Str) : CParseState :=
  let trimmed := trimL line
  if trimmed.isEmpty || startsWithL (strL "//") trimmed
      || startsWithL (strL "/*") trimmed || startsWithL (strL "*") trimmed
      || startsWithL (strL "#") trimmed then
    { p with headerBuf := [], headerStart := none }
  else
    let headerStart := match p.headerStart with
      | none => i + 1
      | some h => h
    let headerBuf :=
      if p.headerBuf.isEmpty then trimmed else p.headerBuf ++ ' ' :: trimmed
    if containsSub (strL "\x7b") trimmed then
      let candidate := match findSubIdx (strL "\x7b") headerBuf with
        | some idx => trimL (headerBuf.take idx)
        | none => headerBuf
      let p2 := match matchFuncHeader candidate with
        | some name =>
          if !isControlKeyword name then
            { p with inFunc := true, funcName := name, funcStart := headerStart,
                     braceDepth :=
                       (((lines.take (i + 1)).drop (headerStart - 1)).map
                         braceBalance).sum }
          else p
        | none => p
      { p2 with headerBuf := [], headerStart := none }
    else
      { p with headerBuf := headerBuf, headerStart := some headerStart }

/-- One full loop iteration of `CParser.ParseFile` on the 0-based-indexed
line `q`. -/
def cParseFold (lines : List Str) (path : String) (p : CParseState)
    (q : Nat × Str) : CParseState :=
  if !p.inFunc then cParseStepOutside lines p q.1 q.2
  else
    let bd := p.braceDepth + braceBalance q.2
    let p := { p with braceDepth := bd }
    if bd ≤ 0 then cCloseFunction lines path p q.1 else p

/-- `CParser.ParseFile(path, src)` from `c_parser.go` (the parser never
fails; `src` is already split into lines). -/
def cParseFile (path : String) (lines : List Str) : FileMetrics :=
  let totalLines := lines.length
  let commentLines := estimateCommentLines lines
  let density : ℚ :=
    if 0 < totalLines then (commentLines : ℚ) / (totalLines : ℚ) else 0
  let final := lines.enum.foldl (cParseFold lines path)
    { functions := [], allNloc := 0, allCcn := 0, maxCcn := 0, gt10 := 0,
      gt20 := 0, inFunc := false, funcStart := 0, funcName := [],
      braceDepth := 0, headerBuf := [], headerStart := none }
  let fnCount := final.functions.length
  let avgCcn : ℚ :=
    if 0 < fnCount then (final.allCcn : ℚ) / (fnCount : ℚ) else 0
  { Path := path, Language := LanguageC,
    Summary := { NLOC := final.allNloc, CCNTotal := final.allCcn,
                 CCNAvgPerFunction := avgCcn, CCNMaxFunction := final.maxCcn,
                 FunctionsCount := fnCount, FunctionsCCNGt10 := final.gt10,
                 FunctionsCCNGt20 := final.gt20 },
    Functions := final.functions,
    Comments := { TotalLines := totalLines, CommentLines := commentLines,
                  CommentDensity := density, PublicAPIDocPct := 0 },
    Smells := [], Git := none }

/-! ## The Go parser (`internal/adapter/parser/metrics.go`, `GoParser`)

The Go parser builds a `go/ast` syntax tree (an external library). The
tree-derived data of each top-level `*ast.FuncDecl` with a non-nil body —
positions, nested function literals, parameter counts, doc-comment
presence and the identifiers of direct call expressions — is taken as
input (`DeclInfo`/`LitInfo`); everything `GoParser.ParseFile` and
`analyzeGoFunction` compute from that data is embedded faithfully. -/

/-- Tree-derived data of one nested `*ast.FuncLit`: line positions, the
parameter count (`countParamsFromFieldList`) and the callee identifiers
collected by the `ast.Inspect` walk of its body (in walk order, before
de-duplication). -/
structure LitInfo where
  litStart : Nat
  litStop : Nat
  params : Nat
  callees : List String

/-- Tree-derived data of one top-level `*ast.FuncDecl` with a body. -/
structure DeclInfo where
  name : String
  declStart : Nat
  declStop : Nat
  lits : List LitInfo
  params : Nat
  isDoc : Bool
  callees : List String

/-- `ast.IsExported`: the first character is upper case. -/
def isExported (s : String) : Bool :=
  match s.toList with
  | [] => false
  | c :: _ => c.isUpper

/-- `analyzeGoFunction(path, lines, fset, fdecl)`: returns the main
function's metrics, the nested literals' metrics, and the public /
documented-public counters. -/
def analyzeGoFunction (path : String) (lines : List Str) (d : DeclInfo) :
    FunctionMetrics × List FunctionMetrics × Nat × Nat :=
  let start := if d.declStart < 1 then 1 else d.declStart
  let stop := if lines.length < d.declStop then lines.length else d.declStop
  let excludes := d.lits.filterMap (fun lit =>
    let s := if lit.litStart < start then start else lit.litStart
    let e := if stop < lit.litStop then stop else lit.litStop
    if s ≤ e then some ⟨s, e⟩ else none)
  let m := computeTextMetricsForRangeWithExcludes lines start stop excludes
  let isPublic := isExported d.name
  let isDoc := d.isDoc
  let publicCount := if isPublic then 1 else 0
  let documentedPublic := if isPublic && isDoc then 1 else 0
  let commentDensityFn : ℚ :=
    if 0 < m.nloc + m.commentLines
    then (m.commentLines : ℚ) / ((m.nloc + m.commentLines : Nat) : ℚ)
    else 0
  let callees := sortStrings d.callees.eraseDups
  let mainFn : FunctionMetrics :=
    { Name := d.name, Signature := d.name, FilePath := path,
      Language := LanguageGo, StartLine := start, EndLine := stop,
      NLOC := m.nloc, Parameters := d.params, LocalVariables := m.locals,
      CCN := m.ccn, CognitiveComplexity := m.cognitive,
      MaxNesting := m.maxNesting, FanIn := 0, FanOut := callees.length,
      CommentDensity := commentDensityFn, HotspotScore := 0,
      Callees := callees, IsPublic := isPublic, IsDocumented := isDoc }
  let nestedFns := d.lits.filterMap (fun lit =>
    let s := if lit.litStart < 1 then 1 else lit.litStart
    let e := if lines.length < lit.litStop then lines.length else lit.litStop
    if e < s then none
    else
      let ml := computeTextMetricsForRangeWithExcludes lines s e []
      let cd : ℚ :=
        if 0 < ml.nloc + ml.commentLines
        then (ml.commentLines : ℚ) / ((ml.nloc + ml.commentLines : Nat) : ℚ)
        else 0
      let cs := sortStrings lit.callees.eraseDups
      let nm := "@" ++ toString s ++ "-" ++ toString e
      some { Name := nm, Signature := nm, FilePath := path,
             Language := LanguageGo, StartLine := s, EndLine := e,
             NLOC := ml.nloc, Parameters := lit.params,
             LocalVariables := ml.locals, CCN := ml.ccn,
             CognitiveComplexity := ml.cognitive, MaxNesting := ml.maxNesting,
             FanIn := 0, FanOut := cs.length, CommentDensity := cd,
             HotspotScore := 0, Callees := cs,
             IsPublic := false, IsDocumented := false })
  (mainFn, nestedFns, publicCount, documentedPublic)

/-- Accumulator of the `GoParser.ParseFile` declaration loop. -/
structure GoParseAcc where
  functions : List FunctionMetrics
  allNloc : Nat
  allCcn : Nat
  maxCcn : Nat
  gt10 : Nat
  gt20 : Nat
  documentedPublic : Nat
  publicCount : Nat

/-- One iteration of the `GoParser.ParseFile` declaration loop. -/
def goParseStep (path : String) (lines : List Str) (acc : GoParseAcc)
    (d : DeclInfo) : GoParseAcc :=
  let r := analyzeGoFunction path lines d
  let mainFn := r.1
  if mainFn.Name = "" then acc
  else
    let allFns := mainFn :: r.2.1
    let acc := { acc with publicCount := acc.publicCount + r.2.2.1,
                          documentedPublic := acc.documentedPublic + r.2.2.2 }
    allFns.foldl
      (fun a fn =>
        { a with functions := a.functions ++ [fn],
                 allNloc := a.allNloc + fn.NLOC,
                 allCcn := a.allCcn + fn.CCN,
                 maxCcn := max a.maxCcn fn.CCN,
                 gt10 := a.gt10 + (if 10 < fn.CCN then 1 else 0),
                 gt20 := a.gt20 + (if 20 < fn.CCN then 1 else 0) })
      acc

/-- The smell scan at the end of `GoParser.ParseFile`. -/
def goSmells (functions : List FunctionMetrics) : List CodeSmell :=
  functions.foldl
    (fun acc fn =>
      acc
        ++ (if 5 ≤ fn.Parameters then
              [{ Kind := "many_parameters",
                 Description := "function has many parameters (>=5)",
                 FilePath := fn.FilePath, Function := fn.Name,
                 Line := fn.StartLine }] else [])
        ++ (if 15 ≤ fn.LocalVariables then
              [{ Kind := "many_locals",
                 Description := "function has many local variables (>=15)",
                 FilePath := fn.FilePath, Function := fn.Name,
                 Line := fn.StartLine }] else [])
        ++ (if 4 ≤ fn.MaxNesting then
              [{ Kind := "deep_nesting",
                 Description := "function has deep nesting (>=4)",
                 FilePath := fn.FilePath, Function := fn.Name,
                 Line := fn.StartLine }] else []))
    []

/-- `GoParser.ParseFile(path, src)` after a successful `parser.ParseFile`:
`decls` are the tree-derived descriptions of the function declarations, in
source order. (A failed parse returns the error before any of this runs.) -/
def goParseFile (path : String) (lines : List Str) (decls : List DeclInfo) :
    FileMetrics :=
  let totalLines := lines.length
  let commentLines := estimateCommentLines lines
  let commentDensity : ℚ :=
    if 0 < totalLines then (commentLines : ℚ) / (totalLines : ℚ) else 0
  let final := decls.foldl (goParseStep path lines)
    { functions := [], allNloc := 0, allCcn := 0, maxCcn := 0, gt10 := 0,
      gt20 := 0, documentedPublic := 0, publicCount := 0 }
  let fnCount := final.functions.length
  let avgCcn : ℚ :=
    if 0 < fnCount then (final.allCcn : ℚ) / (fnCount : ℚ) else 0
  let publicDocPct : ℚ :=
    if 0 < final.publicCount
    then (final.documentedPublic : ℚ) / (final.publicCount : ℚ) else 0
  { Path := path, Language := LanguageGo,
    Summary := { NLOC := final.allNloc, CCNTotal := final.allCcn,
                 CCNAvgPerFunction := avgCcn, CCNMaxFunction := final.maxCcn,
                 FunctionsCount := fnCount, FunctionsCCNGt10 := final.gt10,
                 FunctionsCCNGt20 := final.gt20 },
    Functions := final.functions,
    Comments := { TotalLines := totalLines, CommentLines := commentLines,
                  CommentDensity := commentDensity,
                  PublicAPIDocPct := publicDocPct },
    Smells := goSmells final.functions, Git := none }

/-! ## IEEE-754 binary64 rounding (for the 95th-percentile index)

`buildProjectReport` computes `int(0.95 * float64(len(sizes)-1))`. Both the
`int → float64` conversion and the multiplication round to nearest, ties to
even. This is modeled exactly over `ℚ` for positive values in the normal
finite range (every value arising here is far from overflow and from the
subnormal range, so exponent clamping is irrelevant and is not modeled). -/

/-- Round to the nearest integer, ties to even (the comparisons of the
fractional part `r ∈ [0,1)` against `1/2` are written on `r`'s numerator
and denominator so that the kernel can evaluate them). -/
def roundHalfEven (q : ℚ) : ℤ :=
  let f := ⌊q⌋
  let r := q - f
  if r.num * 2 < (r.den : ℤ) then f
  else if (r.den : ℤ) < r.num * 2 then f + 1
  else if f % 2 = 0 then f else f + 1

/-- `2 ^ k` in `ℚ` for an integer `k`, by kernel-reducible `Nat` powers. -/
def pow2z (k : ℤ) : ℚ :=
  if 0 ≤ k then ((2 ^ k.toNat : ℕ) : ℚ) else ((2 ^ (-k).toNat : ℕ) : ℚ)⁻¹

/-- Fueled base-2 floor logarithm (kernel-reducible counterpart of
`Nat.log 2`; the fuel used below covers the whole binary64 range). -/
def log2fuel : ℕ → ℕ → ℕ
  | 0, _ => 0
  | f + 1, n => if 2 ≤ n then log2fuel f (n / 2) + 1 else 0

/-- Fueled base-2 ceiling logarithm (kernel-reducible counterpart of
`Nat.clog 2`). -/
def clog2fuel : ℕ → ℕ → ℕ
  | 0, _ => 0
  | f + 1, n => if 1 < n then clog2fuel f ((n + 1) / 2) + 1 else 0

/-- The binade exponent `⌊log₂ q⌋` of a positive rational (the largest `e`
with `2^e ≤ q`), by fueled logarithms. -/
def intLog2 (q : ℚ) : ℤ :=
  if (q.den : ℤ) ≤ q.num then (log2fuel 1200 (⌊q⌋).toNat : ℤ)
  else -(clog2fuel 1200 (⌈q⁻¹⌉).toNat : ℤ)

/-- IEEE-754 binary64 round-to-nearest-even of a positive rational in the
normal range: 53 significant bits at the value's own binade. Non-positive
inputs (only `0` arises here) map to `0`. Overflow and subnormals cannot
arise for the values fed to this model and are not modeled. -/
def floatRN (q : ℚ) : ℚ :=
  if q.num ≤ 0 then 0
  else
    let e := intLog2 q
    (roundHalfEven (q * pow2z (52 - e)) : ℚ) * pow2z (e - 52)

/-- The binary64 value of the Go constant `0.95`
(`8556839292003942 × 2⁻⁵³`, slightly below `19/20`). -/
def float095 : ℚ := mkRat 8556839292003942 (2 ^ 53)

/-- Go's `int(x)` conversion from `float64`: truncation toward zero. -/
def f64toInt (q : ℚ) : ℤ :=
  if 0 ≤ q.num then ⌊q⌋ else ⌈q⌉

/-- The computed 95th-percentile index of `buildProjectReport` for
`n = len(sizes) > 0`: `int(0.95*float64(n-1))` with both roundings modeled,
then clamped to `[0, n-1]`. -/
def idxP95 (n : ℕ) : ℤ :=
  let idx := f64toInt (floatRN (float095 * floatRN ((n - 1 : ℕ) : ℚ)))
  let idx := if idx < 0 then 0 else idx
  if (n : ℤ) ≤ idx then (n : ℤ) - 1 else idx

/-! ## The aggregator (`AnalyzeProjectUseCase`, same file as `Execute`) -/

/-- Total number of occurrences of `name` in the callee lists of every
function of every file. -/
def calleeOccurrences (files : List FileMetrics) (name : String) : Nat :=
  (files.map (fun f =>
    (f.Functions.map (fun fn =>
      fn.Callees.countP (fun c => decide (c = name)))).sum)).sum

/-- `annotateFunctionCoupling(files)`. The Go code first builds `byName`,
a map from each non-empty function name to all its (file, function)
positions, then, for every callee-name occurrence anywhere, increments the
`FanIn` of every function sharing that name. The net effect on each
function (the increments are order-independent and `FanIn` is read
nowhere during the pass) is: a function with a non-empty name gains one
`FanIn` per occurrence of its name in any callee list; a function with an
empty name is never in `byName` and gains nothing. -/
def annotateFunctionCoupling (files : List FileMetrics) : List FileMetrics :=
  files.map (fun f =>
    { f with Functions := f.Functions.map (fun fn =>
        if fn.Name = "" then fn
        else { fn with FanIn := fn.FanIn + calleeOccurrences files fn.Name }) })

/-- Number of functions across the whole project whose name is `name`. -/
def nameCount (files : List FileMetrics) (name : String) : Nat :=
  (files.flatMap (fun f => f.Functions)).countP (fun fn => decide (fn.Name = name))

/-- Number of distinct call sites across the whole project naming `name`:
functions whose (de-duplicated) callee list contains `name`. -/
def callSiteCount (files : List FileMetrics) (name : String) : Nat :=
  (files.flatMap (fun f => f.Functions)).countP (fun fn => decide (name ∈ fn.Callees))

/-- `annotateFunctionHotspots(files)`: for each file with git data and
nonzero churn, set every function's `HotspotScore` to
`CCN × ln(1 + churn)` (`math.Log1p`). -/
noncomputable def annotateFunctionHotspots (files : List FileMetrics) :
    List FileMetrics :=
  files.map (fun f =>
    match f.Git with
    | none => f
    | some g =>
      let churn := g.LinesAdded + g.LinesDeleted
      if churn = 0 then f
      else
        let factor : ℝ := Real.log (1 + (churn : ℝ))
        { f with Functions := f.Functions.map (fun fn =>
            { fn with HotspotScore := (fn.CCN : ℝ) * factor }) })

/-- The body of the collection loop of `buildHotspots`: the hotspot
contributed by one file, if any (`nil` git, zero total CCN or zero churn
contribute nothing). -/
noncomputable def hotspotOf (f : FileMetrics) : Option Hotspot :=
  if f.Summary.CCNTotal = 0 then none
  else
    match f.Git with
    | none => none
    | some g =>
      let churn := g.LinesAdded + g.LinesDeleted
      if churn = 0 then none
      else some
        { FilePath := f.Path, Reason := "complexity × churn",
          Score := (f.Summary.CCNTotal : ℝ) * Real.log (1 + (churn : ℝ)),
          CCN := f.Summary.CCNTotal, Churn := churn }

/-- The unsorted hotspot list collected by the loop of `buildHotspots`,
in input order. -/
noncomputable def hotspotCandidates (files : List FileMetrics) : List Hotspot :=
  files.filterMap hotspotOf

/-- The integer sort key `(1 + churn) ^ ccn`. For every hotspot the loop
builds, `Score = CCN × ln(1 + Churn) = ln((1 + Churn) ^ CCN)` and `ln` is
strictly monotone on `[1, ∞)`, so comparing these keys is exactly
comparing scores (proved in `hotspotBefore_iff_score_le`). -/
def hotspotKey (h : Hotspot) : ℕ :=
  (1 + h.Churn) ^ h.CCN

/-- The ordering used to embed `sort.Slice(hs, Score[i] > Score[j])`:
`a` may precede `b` iff `a`'s score is at least `b`'s. (`sort.Slice` is
an unstable sort; an insertion sort by this total relation produces one
of its admissible outputs, and every property claimed of the hotspot list
is independent of the order of score ties.) -/
def hotspotBefore (a b : Hotspot) : Prop :=
  hotspotKey b ≤ hotspotKey a

instance : DecidableRel hotspotBefore := by
  intro a b
  unfold hotspotBefore
  infer_instance

/-- `buildHotspots(files)`: collect, sort by descending score, truncate to
the top 10. -/
noncomputable def buildHotspots (files : List FileMetrics) : List Hotspot :=
  let hs := hotspotCandidates files
  let sorted := hs.insertionSort hotspotBefore
  if 10 < sorted.length then sorted.take 10 else sorted

/-- All functions of all files, in order (the inner loop of the statistics
pass of `buildProjectReport`). -/
def allFns (files : List FileMetrics) : List FunctionMetrics :=
  files.flatMap (·.Functions)

/-- The statistics pass of `buildProjectReport` (everything assigned to
`proj`). Each Go accumulator variable is written as the corresponding
fold/sum/count over the input list. The `float64` accumulator
`sumCommentDensity += f.Comments.CommentDensity` and the final division
round at every step, so they are modeled with binary64 round-to-nearest
(`floatRN`), keeping the source's order-dependent rounding; the integer
accumulators are exact in `ℕ`/`ℚ`. -/
def buildProjectMetrics (files : List FileMetrics) : ProjectMetrics :=
  let totalFunctions := (files.map (fun f => f.Functions.length)).sum
  let totalCCN := (files.map (fun f => f.Summary.CCNTotal)).sum
  let maxCCN := files.foldl (fun a f => max a f.Summary.CCNMaxFunction) 0
  let functionsCcnGt10 := (files.map (fun f => f.Summary.FunctionsCCNGt10)).sum
  let functionsCcnGt20 := (files.map (fun f => f.Summary.FunctionsCCNGt20)).sum
  let withComments := files.filter (fun f => decide (0 < f.Comments.TotalLines))
  let sumCommentDensity :=
    withComments.foldl (fun s f => floatRN (s + f.Comments.CommentDensity)) 0
  let filesWithComments := withComments.length
  let gits := files.filterMap (fun f => f.Git)
  let gitLinesAdded := (gits.map (fun g => g.LinesAdded)).sum
  let gitLinesDeleted := (gits.map (fun g => g.LinesDeleted)).sum
  let gitCommits := (gits.map (fun g => g.Commits)).sum
  let fns := allFns files
  let sizes := fns.map (fun fn => fn.NLOC)
  let sumParams : ℚ := (fns.map (fun fn => (fn.Parameters : ℚ))).sum
  let fnGt50 := fns.countP (fun fn => decide (50 < fn.NLOC))
  let fnGt80 := fns.countP (fun fn => decide (80 < fn.NLOC))
  let fnGt100 := fns.countP (fun fn => decide (100 < fn.NLOC))
  let paramsGe5 := fns.countP (fun fn => decide (5 ≤ fn.Parameters))
  let sorted := sizes.insertionSort (· ≤ ·)
  let n := sizes.length
  let median : ℚ :=
    if 0 < n then
      if n % 2 = 1 then ((sorted.getD (n / 2) 0 : ℕ) : ℚ)
      else ((sorted.getD (n / 2 - 1) 0 + sorted.getD (n / 2) 0 : ℕ) : ℚ) / 2
    else 0
  let p95 : ℚ :=
    if 0 < n then ((sorted.getD (idxP95 n).toNat 0 : ℕ) : ℚ) else 0
  { TotalFiles := files.length,
    TotalFunctions := totalFunctions,
    AvgCCNPerFunction :=
      if 0 < totalFunctions then (totalCCN : ℚ) / (totalFunctions : ℚ) else 0,
    MaxCCNPerFunction := maxCCN,
    FunctionsCCNGt10Pct :=
      if 0 < totalFunctions then (functionsCcnGt10 : ℚ) / (totalFunctions : ℚ) else 0,
    FunctionsCCNGt20Pct :=
      if 0 < totalFunctions then (functionsCcnGt20 : ℚ) / (totalFunctions : ℚ) else 0,
    MedianFunctionSize := median,
    P95FunctionSize := p95,
    FunctionsGt50Lines := fnGt50,
    FunctionsGt80Lines := fnGt80,
    FunctionsGt100Lines := fnGt100,
    AvgParamsPerFunction :=
      if 0 < totalFunctions then sumParams / (totalFunctions : ℚ) else 0,
    FunctionsParamsGe5 := paramsGe5,
    CommentDensityAvg :=
      if 0 < filesWithComments
      then floatRN (sumCommentDensity / (filesWithComments : ℚ)) else 0,
    GitTotalLinesAdded := gitLinesAdded,
    GitTotalLinesDeleted := gitLinesDeleted,
    GitTotalCommits := gitCommits }

/-- `model.AllMetricSummaries()`: the static metric catalog. -/
def allMetricSummaries : List MetricSummary :=
  [{ ID := "complexity.ccn", Name := "Cyclomatic Complexity (CCN)",
     Description := "Branching-based complexity per function/file/module.",
     Group := "complexity" },
   { ID := "complexity.cognitive", Name := "Cognitive Complexity",
     Description := "Nesting and boolean-logic-aware complexity per function.",
     Group := "complexity" },
   { ID := "complexity.max_nesting", Name := "Max Nesting Depth",
     Description := "Maximum depth of nested control structures.",
     Group := "complexity" },
   { ID := "size.nloc", Name := "NLOC",
     Description := "Non-empty, non-comment logical lines of code per file.",
     Group := "size" },
   { ID := "size.function_nloc", Name := "Function NLOC",
     Description := "Lines of code per function for distribution analysis.",
     Group := "size" },
   { ID := "params.count", Name := "Parameter Count",
     Description := "Number of parameters per function.", Group := "size" },
   { ID := "locals.count", Name := "Local Variables Count",
     Description := "Number of local variables per function.", Group := "size" },
   { ID := "coupling.fan_in", Name := "Fan-in",
     Description := "How many functions depend on a given function (callers).",
     Group := "coupling" },
   { ID := "coupling.fan_out", Name := "Fan-out",
     Description := "How many functions a given function depends on (callees).",
     Group := "coupling" },
   { ID := "coupling.afferent", Name := "Afferent Coupling (Ca)",
     Description := "Number of modules that depend on this module.",
     Group := "coupling" },
   { ID := "coupling.efferent", Name := "Efferent Coupling (Ce)",
     Description := "Number of modules this module depends on.",
     Group := "coupling" },
   { ID := "coupling.instability", Name := "Instability",
     Description := "Ce / (Ca + Ce), 0 = stable, 1 = unstable.",
     Group := "coupling" },
   { ID := "comments.density", Name := "Comment Density",
     Description := "Ratio of comment lines to total lines.",
     Group := "comments" },
   { ID := "comments.public_api_doc", Name := "Public API Doc Coverage",
     Description := "Percentage of public functions with documentation.",
     Group := "comments" },
   { ID := "clones.density", Name := "Clone Density",
     Description := "Estimated amount of duplicated code.", Group := "clones" },
   { ID := "smells.count", Name := "Code Smells",
     Description := "Count of simple structural smells (many params, deep nesting, etc.).",
     Group := "smells" },
   { ID := "git.churn.lines_added", Name := "Git Lines Added",
     Description := "Lines added in Git history for a file.", Group := "git" },
   { ID := "git.churn.lines_deleted", Name := "Git Lines Deleted",
     Description := "Lines deleted in Git history for a file.", Group := "git" },
   { ID := "git.commits", Name := "Git Commits",
     Description := "Number of commits touching a file.", Group := "git" },
   { ID := "git.commits.bugfix", Name := "Bugfix Commits",
     Description := "Number of commits that look like bug fixes.", Group := "git" },
   { ID := "git.authors", Name := "Authors",
     Description := "Number of distinct authors touching a file (bus factor proxy).",
     Group := "git" },
   { ID := "hotspot.score_complexity_churn", Name := "Hotspot Score",
     Description := "Heuristic score combining complexity and churn.",
     Group := "hotspots" }]

/-- `buildProjectReport(root, files, warnings)`: statistics pass, the two
annotation passes (which mutate the file slice in place in Go, so the
reported `Files` are the annotated ones), and the hotspot ranking. -/
noncomputable def buildProjectReport (root : String) (files : List FileMetrics)
    (warnings : List String) : ProjectReport :=
  let proj := buildProjectMetrics files
  let files2 := annotateFunctionHotspots (annotateFunctionCoupling files)
  let hotspots := buildHotspots files2
  { RootPath := root, Files := files2, Project := proj, Hotspots := hotspots,
    MetricMetadata := allMetricSummaries, Warnings := warnings }

/-! ## The orchestrator (`AnalyzeProjectUseCase.Execute`)

The worker pool dispatches each scanned path to exactly one worker;
reading, parser selection and parsing happen per path, and the collected
files/warnings are whatever the collector received, in some interleaving.
The embedding processes the paths sequentially in scan order (one
admissible schedule; every property settled here is independent of the
interleaving, which only permutes `files` and the per-file warnings).
Cancellation (`ctx.Done`) is not modeled: the claims concern uncancelled
runs. -/

/-- A registered parser (`ports.CodeParser`): `SupportsFile` and
`ParseFile` (which may fail). -/
structure ParserM where
  supports : String → Bool
  parse : String → List Str → Except String FileMetrics

/-- The collaborators consumed by `Execute`, exactly the fields of
`AnalyzeProjectUseCase` plus `filepath.Rel` (standard library). `scan` is
the scanner's result for the request's root and extension list; `git` is
`CollectFileMetrics`'s result (map, error) — Go's `nil` map is `none`;
`save` is the storage's verdict on a report; `rel` returns
`filepath.Rel(root, path)` when that call succeeds. -/
structure Collabs where
  scan : Except String (List String)
  read : String → Except String (List Str)
  parsers : List ParserM
  git : Option (List (String × GitFileMetrics)) × Option String
  save : String → ProjectReport → Option String
  rel : String → String → Option String

/-- `AnalyzeProjectRequest`. -/
structure AnalyzeProjectRequest where
  RootPath : String
  IncludeExt : List String

/-- `selectParser(path)`: first registered parser whose `SupportsFile`
matches. -/
def selectParser (parsers : List ParserM) (path : String) : Option ParserM :=
  parsers.find? (fun p => p.supports path)

/-- The per-path worker body: read (failure → warning), select a parser
(none → silently skip), parse (failure → warning), else emit the
`FileMetrics`. Sequential fold over the scanned paths; the pair collects
(files, warnings). -/
def processFiles (c : Collabs) (paths : List String) :
    List FileMetrics × List String :=
  paths.foldl
    (fun acc path =>
      match c.read path with
      | Except.error e => (acc.1, acc.2 ++ ["read " ++ path ++ ": " ++ e])
      | Except.ok src =>
        match selectParser c.parsers path with
        | none => acc
        | some p =>
          match p.parse path src with
          | Except.error e => (acc.1, acc.2 ++ ["parse " ++ path ++ ": " ++ e])
          | Except.ok fm => (acc.1 ++ [fm], acc.2))
    ([], [])

/-- The git-attachment loop of `Execute`: exact path match first, then the
root-relative path when `filepath.Rel` succeeds. -/
def attachGit (c : Collabs) (root : String)
    (gitMetrics : List (String × GitFileMetrics)) (files : List FileMetrics) :
    List FileMetrics :=
  files.map (fun f =>
    match (gitMetrics.find? (fun kv => kv.1 = f.Path)) with
    | some kv => { f with Git := some kv.2 }
    | none =>
      match c.rel root f.Path with
      | some r =>
        match (gitMetrics.find? (fun kv => kv.1 = r)) with
        | some kv => { f with Git := some kv.2 }
        | none => f
      | none => f)

/-- `AnalyzeProjectUseCase.Execute(ctx, req)`. -/
noncomputable def execute (c : Collabs) (req : AnalyzeProjectRequest) :
    Except String ProjectReport :=
  if req.RootPath = "" then Except.error "root path is required"
  else
    match c.scan with
    | Except.error e => Except.error ("scan source files: " ++ e)
    | Except.ok filesList =>
      if filesList.length = 0 then
        Except.error ("no source files found under " ++ req.RootPath)
      else
        let fw := processFiles c filesList
        let warnings :=
          fw.2 ++ (match c.git.2 with
                   | some e => ["git metrics disabled: " ++ e]
                   | none => [])
        let files :=
          match c.git.1 with
          | some gm => attachGit c req.RootPath gm fw.1
          | none => fw.1
        let report := buildProjectReport req.RootPath files warnings
        match c.save req.RootPath report with
        | some e => Except.error ("save report: " ++ e)
        | none => Except.ok report

/-! ## The git CLI collaborator (`GitCLI.CollectFileMetrics`) -/

/-- The per-path aggregation record of `CollectFileMetrics` (`agg`; the
author set is kept as a de-duplicated list). -/
structure GitAgg where
  added : Nat
  deleted : Nat
  commits : Nat
  bugfixCommits : Nat
  authors : List String

/-- The running state of the `git log --numstat` output scan. -/
structure GitScanState where
  currentAuthor : String
  isBugfix : Bool
  aggs : List (String × GitAgg)

/-- Update the association list entry for `path` (insertion order is kept;
Go uses a map, but the final map values do not depend on order). -/
def updateAgg (aggs : List (String × GitAgg)) (path : String)
    (upd : GitAgg → GitAgg) (init : GitAgg) : List (String × GitAgg) :=
  match aggs with
  | [] => [(path, upd init)]
  | (p, a) :: rest =>
    if p = path then (p, upd a) :: rest
    else (p, a) :: updateAgg rest path upd init

/-- `strings.ToLower`, character by character (ASCII covers every string
lowercased by this program: format names and commit subjects). -/
def toLowerS (s : String) : String :=
  String.mk (s.toList.map Char.toLower)

/-- `strings.Fields`: split around runs of whitespace (no empty fields). -/
def fieldsL (s : Str) : List Str :=
  let p := s.foldr
    (fun ch acc =>
      if ch.isWhitespace then
        (([] : Str), if acc.1.isEmpty then acc.2 else acc.1 :: acc.2)
      else (ch :: acc.1, acc.2))
    (([] : Str), ([] : List Str))
  if p.1.isEmpty then p.2 else p.1 :: p.2

/-- `strings.SplitN(s, ":", n)` for `n ≥ 1`: at most `n` parts, the last
part keeps the remainder. -/
def splitNColon (n : Nat) (s : Str) : List Str :=
  match n with
  | 0 => []
  | 1 => [s]
  | Nat.succ m =>
    match findSubIdx [':'] s with
    | none => [s]
    | some i => s.take i :: splitNColon m (s.drop (i + 1))

/-- One line of the `CollectFileMetrics` output scan. `commit:` header
lines update the current author and the bugfix flag; `numstat` lines
(exactly three fields, numeric counts — binary files report `-` and are
skipped) update the per-path aggregate. The counts git emits are
nonnegative decimals, parsed as such. -/
def gitScanLine (st : GitScanState) (lineS : String) : GitScanState :=
  let line := lineS.toList
  if startsWithL (strL "commit:") line then
    let parts := splitNColon 4 line
    if 4 ≤ parts.length then
      let author := String.mk (parts.getD 2 [])
      let subject := String.mk (parts.getD 3 [])
      let lower := (toLowerS subject).toList
      { st with
        currentAuthor := author,
        isBugfix := containsSub (strL "fix") lower
          || containsSub (strL "bug") lower
          || containsSub (strL "issue") lower }
    else st
  else
    let fields := fieldsL line
    if fields.length ≠ 3 then st
    else
      let addStr := fields.getD 0 []
      let delStr := fields.getD 1 []
      let path := String.mk (fields.getD 2 [])
      if addStr = strL "-" || delStr = strL "-" then st
      else
        match (String.mk addStr).toInt?, (String.mk delStr).toInt? with
        | some added, some deleted =>
          let upd : GitAgg → GitAgg := fun a =>
            { added := a.added + added.toNat,
              deleted := a.deleted + deleted.toNat,
              commits := a.commits + 1,
              bugfixCommits :=
                a.bugfixCommits + (if st.isBugfix then 1 else 0),
              authors :=
                if st.currentAuthor = "" ∨ st.currentAuthor ∈ a.authors
                then a.authors else a.authors ++ [st.currentAuthor] }
          let init : GitAgg :=
            { added := 0, deleted := 0, commits := 0, bugfixCommits := 0,
              authors := [] }
          { st with aggs := updateAgg st.aggs path upd init }
        | _, _ => st

/-- `GitCLI.CollectFileMetrics(ctx, root)`. The external `git` process is a
parameter: `none` models a failing command (`cmd.Output()` error), `some
lines` its line-split standard output. On command failure Go returns an
empty (non-nil) map and a nil error. -/
def gitCLICollectFileMetrics (cmdOut : Option (List String)) :
    List (String × GitFileMetrics) × Option String :=
  match cmdOut with
  | none => ([], none)
  | some lines =>
    let final := lines.foldl gitScanLine
      { currentAuthor := "", isBugfix := false, aggs := [] }
    (final.aggs.map (fun pa =>
      (pa.1,
        { FilePath := pa.1, LinesAdded := pa.2.added,
          LinesDeleted := pa.2.deleted, Commits := pa.2.commits,
          BugfixCommits := pa.2.bugfixCommits,
          Authors := pa.2.authors.length })), none)

/-! ## The report use case (`GenerateReportUseCase.Execute`) and the
renderer registry (`output.RendererRegistry`) -/

/-- A registered renderer (`ports.OutputRenderer`): its format name and
its `Render`. -/
structure RendererM where
  fmtName : String
  render : ProjectReport → Except String String

/-- `RendererRegistry.Get(format)` over the registration list:
`NewRendererRegistry` keys each renderer by its lowercased format name in
a map (later registrations overwrite earlier ones), and `Get` looks up
the lowercased query. -/
def registryGet (renderers : List RendererM) (format : String) :
    Option RendererM :=
  (renderers.reverse).find? (fun r => toLowerS r.fmtName = toLowerS format)

/-- `GenerateReportRequest`. -/
structure GenerateReportRequest where
  RootPath : String
  Format : String

/-- `GenerateReportUseCase.Execute(ctx, req)`: `load` is the storage's
result for the request's root. -/
def generateReportExecute (load : Except String ProjectReport)
    (registry : List RendererM) (req : GenerateReportRequest) :
    Except String String :=
  match load with
  | Except.error e => Except.error e
  | Except.ok report =>
    let format := toLowerS req.Format
    let format := if format = "" then "text" else format
    match registryGet registry format with
    | none => Except.error ("unknown format \x22" ++ format ++ "\x22")
    | some r => r.render report

/-- A renderer registered under the (mixed-case) name `TEXT`, for the C10
witness. -/
def c10Renderer : RendererM :=
  { fmtName := "TEXT", render := fun _ => Except.ok "rendered" }

/-- Inputs for the C9 witness: a collaborator wired with the git CLI's
result on a failing `git` command. -/
noncomputable def c9Collabs : Collabs :=
  { scan := Except.ok ["a.c"],
    read := fun _ => Except.ok [],
    parsers := [],
    git := (some (gitCLICollectFileMetrics none).1, (gitCLICollectFileMetrics none).2),
    save := fun _ _ => none,
    rel := fun _ _ => none }

/-! ## C1: which failures are fatal in `Execute` -/

/-- A parser that accepts every path and parses with the C parser, for the
C1 inputs. -/
def c1Parser : ParserM :=
  { supports := fun _ => true,
    parse := fun path src => Except.ok (cParseFile path src) }

/-- Collaborators whose scan succeeds with one file, whose read/parse
succeed, but whose storage rejects the report. -/
noncomputable def c1Collabs : Collabs :=
  { scan := Except.ok ["a.c"],
    read := fun _ => Except.ok [],
    parsers := [c1Parser],
    git := (some [], none),
    save := fun _ _ => some "disk full",
    rel := fun _ _ => none }

/-- Collaborators for the C1 witness: one unreadable file, one parsable
file, a failing version-control collaborator, a storage that accepts. -/
noncomputable def c1WitCollabs : Collabs :=
  { scan := Except.ok ["a.c", "b.c"],
    read := fun p => if p = "a.c" then Except.error "EACCES" else Except.ok [],
    parsers := [c1Parser],
    git := (some [], some "not a git repo"),
    save := fun _ _ => none,
    rel := fun _ _ => none }

/-- Concrete inputs for the C4 witness. -/
def fnAlpha : FunctionMetrics :=
  { Name := "alpha", Signature := "alpha", FilePath := "a.c", Language := "c",
    StartLine := 1, EndLine := 2, NLOC := 1, Parameters := 0,
    LocalVariables := 0, CCN := 1, CognitiveComplexity := 0, MaxNesting := 0,
    FanIn := 0, FanOut := 1, CommentDensity := 0, HotspotScore := 0,
    Callees := ["beta"], IsPublic := false, IsDocumented := false }

/-- Concrete inputs for the C4 witness. -/
def fnBeta : FunctionMetrics :=
  { Name := "beta", Signature := "beta", FilePath := "b.c", Language := "c",
    StartLine := 1, EndLine := 2, NLOC := 1, Parameters := 0,
    LocalVariables := 0, CCN := 1, CognitiveComplexity := 0, MaxNesting := 0,
    FanIn := 0, FanOut := 0, CommentDensity := 0, HotspotScore := 0,
    Callees := [], IsPublic := false, IsDocumented := false }

/-- Concrete inputs for the C4 witness. -/
def c4Summary : FileSummaryMetrics :=
  { NLOC := 1, CCNTotal := 1, CCNAvgPerFunction := 1, CCNMaxFunction := 1,
    FunctionsCount := 1, FunctionsCCNGt10 := 0, FunctionsCCNGt20 := 0 }

/-- Concrete inputs for the C4 witness. -/
def c4Comments : CommentMetrics :=
  { TotalLines := 2, CommentLines := 0, CommentDensity := 0,
    PublicAPIDocPct := 0 }

/-- Concrete inputs for the C4 witness: `alpha` (in `a.c`) calls `beta`
(in `b.c`), which is uniquely named and never calls anything. -/
def c4Files : List FileMetrics :=
  [{ Path := "a.c", Language := "c", Summary := c4Summary,
     Functions := [fnAlpha], Comments := c4Comments, Smells := [],
     Git := none },
   { Path := "b.c", Language := "c", Summary := c4Summary,
     Functions := [fnBeta], Comments := c4Comments, Smells := [],
     Git := none }]

/-- The score written into a function of a file with churn `churn`. -/
noncomputable def fnScore (ccn churn : Nat) : ℝ :=
  (ccn : ℝ) * Real.log (1 + (churn : ℝ))

/-- The per-pair specification of `annotateFunctionHotspots`: files with
no git data or zero churn are untouched; the functions of a file with
nonzero churn get `HotspotScore = CCN × ln(1 + churn)` and nothing else
changes. -/
def hotspotAnnRel (f f' : FileMetrics) : Prop :=
  ((f.Git = none ∨ ∃ g, f.Git = some g ∧ g.LinesAdded + g.LinesDeleted = 0) →
    f' = f) ∧
  (∀ g, f.Git = some g → g.LinesAdded + g.LinesDeleted ≠ 0 →
    List.Forall₂ (fun fn fn' =>
      fn' = { fn with HotspotScore := fnScore fn.CCN (g.LinesAdded + g.LinesDeleted) })
      f.Functions f'.Functions)

/-- Concrete inputs for the C2 witness. -/
def c2Git : GitFileMetrics :=
  { FilePath := "a.c", LinesAdded := 1, LinesDeleted := 1, Commits := 1,
    BugfixCommits := 0, Authors := 1 }

/-- Concrete inputs for the C2 witness. -/
def c2GitZero : GitFileMetrics :=
  { FilePath := "b.c", LinesAdded := 0, LinesDeleted := 0, Commits := 0,
    BugfixCommits := 0, Authors := 0 }

/-- Concrete inputs for the C2 witness: one file with churn 2 and total
CCN 3, one file with zero churn. -/
def c2FileHot : FileMetrics :=
  { Path := "a.c", Language := "c",
    Summary := { NLOC := 1, CCNTotal := 3, CCNAvgPerFunction := 3,
                 CCNMaxFunction := 3, FunctionsCount := 1,
                 FunctionsCCNGt10 := 0, FunctionsCCNGt20 := 0 },
    Functions := [], Comments := { TotalLines := 1, CommentLines := 0,
                                   CommentDensity := 0, PublicAPIDocPct := 0 },
    Smells := [], Git := some c2Git }

/-- Concrete inputs for the C2 witness. -/
def c2FileZero : FileMetrics :=
  { Path := "b.c", Language := "c",
    Summary := { NLOC := 1, CCNTotal := 2, CCNAvgPerFunction := 2,
                 CCNMaxFunction := 2, FunctionsCount := 1,
                 FunctionsCCNGt10 := 0, FunctionsCCNGt20 := 0 },
    Functions := [], Comments := { TotalLines := 1, CommentLines := 0,
                                   CommentDensity := 0, PublicAPIDocPct := 0 },
    Smells := [], Git := some c2GitZero }

/-! ## C3: the hotspot list is sorted descending and truncated to 10 -/

/-- Every hotspot the collection loop builds has its score equal to
`CCN × ln(1 + churn)` of its recorded CCN/churn fields. -/
def hotspotWellFormed (h : Hotspot) : Prop :=
  h.Score = fnScore h.CCN h.Churn

instance : IsTotal Hotspot hotspotBefore :=
  ⟨fun _ _ => le_total _ _⟩

instance : IsTrans Hotspot hotspotBefore :=
  ⟨fun _ _ _ hab hbc => le_trans hbc hab⟩

/-- Concrete inputs for the C3 witness: two qualifying files with distinct
scores. -/
def c3Files : List FileMetrics :=
  [{ Path := "a.c", Language := "c",
     Summary := { NLOC := 1, CCNTotal := 3, CCNAvgPerFunction := 3,
                  CCNMaxFunction := 3, FunctionsCount := 1,
                  FunctionsCCNGt10 := 0, FunctionsCCNGt20 := 0 },
     Functions := [], Comments := { TotalLines := 1, CommentLines := 0,
                                    CommentDensity := 0, PublicAPIDocPct := 0 },
     Smells := [],
     Git := some { FilePath := "a.c", LinesAdded := 1, LinesDeleted := 1,
                   Commits := 1, BugfixCommits := 0, Authors := 1 } },
   { Path := "b.c", Language := "c",
     Summary := { NLOC := 1, CCNTotal := 10, CCNAvgPerFunction := 10,
                  CCNMaxFunction := 10, FunctionsCount := 1,
                  FunctionsCCNGt10 := 0, FunctionsCCNGt20 := 0 },
     Functions := [], Comments := { TotalLines := 1, CommentLines := 0,
                                    CommentDensity := 0, PublicAPIDocPct := 0 },
     Smells := [],
     Git := some { FilePath := "b.c", LinesAdded := 10, LinesDeleted := 10,
                   Commits := 2, BugfixCommits := 0, Authors := 1 } }]

/-- Concrete inputs for the C8 witness. -/
def c8FileA : FileMetrics :=
  { Path := "a.c", Language := "c",
    Summary := { NLOC := 1, CCNTotal := 1, CCNAvgPerFunction := 1,
                 CCNMaxFunction := 1, FunctionsCount := 1,
                 FunctionsCCNGt10 := 0, FunctionsCCNGt20 := 0 },
    Functions := [fnAlpha],
    Comments := { TotalLines := 2, CommentLines := 1, CommentDensity := 1 / 2,
                  PublicAPIDocPct := 0 },
    Smells := [],
    Git := some { FilePath := "a.c", LinesAdded := 4, LinesDeleted := 1,
                  Commits := 2, BugfixCommits := 1, Authors := 1 } }

/-- Concrete inputs for the C8 witness. -/
def c8FileB : FileMetrics :=
  { Path := "b.c", Language := "c",
    Summary := { NLOC := 3, CCNTotal := 5, CCNAvgPerFunction := 5,
                 CCNMaxFunction := 5, FunctionsCount := 1,
                 FunctionsCCNGt10 := 0, FunctionsCCNGt20 := 0 },
    Functions := [fnBeta],
    Comments := { TotalLines := 4, CommentLines := 0, CommentDensity := 0,
                  PublicAPIDocPct := 0 },
    Smells := [], Git := none }

/-- C8 counterexample input: comment density `float64(0.1)` (the double
`3602879701896397/2^55`). -/
def c8dA : FileMetrics :=
  { Path := "da.c", Language := "c",
    Summary := { NLOC := 10, CCNTotal := 1, CCNAvgPerFunction := 1,
                 CCNMaxFunction := 1, FunctionsCount := 1,
                 FunctionsCCNGt10 := 0, FunctionsCCNGt20 := 0 },
    Functions := [{ fnAlpha with Name := "da", Callees := [] }],
    Comments := { TotalLines := 10, CommentLines := 1,
                  CommentDensity := mkRat 3602879701896397 (2 ^ 55),
                  PublicAPIDocPct := 0 },
    Smells := [], Git := none }

/-- C8 counterexample input: comment density `float64(0.2)`. -/
def c8dB : FileMetrics :=
  { Path := "db.c", Language := "c",
    Summary := { NLOC := 10, CCNTotal := 1, CCNAvgPerFunction := 1,
                 CCNMaxFunction := 1, FunctionsCount := 1,
                 FunctionsCCNGt10 := 0, FunctionsCCNGt20 := 0 },
    Functions := [{ fnAlpha with Name := "db", Callees := [] }],
    Comments := { TotalLines := 10, CommentLines := 2,
                  CommentDensity := mkRat 3602879701896397 (2 ^ 54),
                  PublicAPIDocPct := 0 },
    Smells := [], Git := none }

/-- C8 counterexample input: comment density `float64(0.3)`. -/
def c8dC : FileMetrics :=
  { Path := "dc.c", Language := "c",
    Summary := { NLOC := 10, CCNTotal := 1, CCNAvgPerFunction := 1,
                 CCNMaxFunction := 1, FunctionsCount := 1,
                 FunctionsCCNGt10 := 0, FunctionsCCNGt20 := 0 },
    Functions := [{ fnAlpha with Name := "dc", Callees := [] }],
    Comments := { TotalLines := 10, CommentLines := 3,
                  CommentDensity := mkRat 5404319552844595 (2 ^ 54),
                  PublicAPIDocPct := 0 },
    Smells := [], Git := none }

/-- Concrete input for the C7 witness: one file with three functions of
sizes 5, 2, 9 (`n = 3`, index `floor(0.95*2) = 1`, sorted sizes `[2,5,9]`). -/
def c7WitFile : FileMetrics :=
  { Path := "w.c", Language := "c",
    Summary := { NLOC := 16, CCNTotal := 3, CCNAvgPerFunction := 1,
                 CCNMaxFunction := 1, FunctionsCount := 3,
                 FunctionsCCNGt10 := 0, FunctionsCCNGt20 := 0 },
    Functions :=
      [{ fnAlpha with Name := "w1", NLOC := 5 },
       { fnAlpha with Name := "w2", NLOC := 2 },
       { fnAlpha with Name := "w3", NLOC := 9 }],
    Comments := { TotalLines := 16, CommentLines := 0, CommentDensity := 0,
                  PublicAPIDocPct := 0 },
    Smells := [], Git := none }

/-- The two blocks of the astronomically large counterexample collection:
`c7A` functions of size 0 followed by `c7B` functions of size 1, so that the
exact index `4560000000000000` lands on a 0 while the binary64-computed
index `4560000000000001` lands on a 1. -/
def c7A : ℕ := 4560000000000001

/-- Second block length of the C7 counterexample collection. -/
def c7B : ℕ := 240000000000001

/-- A function record of size 0 for the C7 counterexample. -/
def c7Fn0 : FunctionMetrics := { fnAlpha with Name := "z", NLOC := 0, Callees := [] }

/-- A function record of size 1 for the C7 counterexample. -/
def c7Fn1 : FunctionMetrics := { fnAlpha with Name := "o", NLOC := 1, Callees := [] }

/-- The counterexample file: `4800000000000002` functions in two size blocks. -/
def c7File : FileMetrics :=
  { Path := "big.c", Language := "c",
    Summary := { NLOC := 0, CCNTotal := 0, CCNAvgPerFunction := 0,
                 CCNMaxFunction := 0, FunctionsCount := 0,
                 FunctionsCCNGt10 := 0, FunctionsCCNGt20 := 0 },
    Functions := List.replicate c7A c7Fn0 ++ List.replicate c7B c7Fn1,
    Comments := { TotalLines := 0, CommentLines := 0, CommentDensity := 0,
                  PublicAPIDocPct := 0 },
    Smells := [], Git := none }

/-! ## CCN lower bound of the two engines (groundwork for C5) -/

theorem cRangeStepCode_ccn_le (st : CRangeState) (t : Str) :
    st.ccn ≤ (cRangeStepCode st t).ccn := by
  unfold cRangeStepCode
  dsimp only
  split
  · exact le_rfl
  · dsimp only
    omega

theorem cRangeStepLine_ccn_le (st : CRangeState) (t : Str) :
    st.ccn ≤ (cRangeStepLine st t).ccn := by
  unfold cRangeStepLine
  dsimp only
  split
  · rename_i idx heq
    split
    · exact le_rfl
    · exact cRangeStepCode_ccn_le { st with commentLines := st.commentLines + 1 } _
  · exact cRangeStepCode_ccn_le _ _

theorem cRangeStepBlock_ccn_le (st : CRangeState) (t : Str) :
    st.ccn ≤ (cRangeStepBlock st t).ccn := by
  unfold cRangeStepBlock
  dsimp only
  split
  · split
    · exact le_rfl
    · split
      · exact le_rfl
      · exact cRangeStepLine_ccn_le { st with commentLines := st.commentLines + 1 } _
  · exact cRangeStepLine_ccn_le _ _

theorem cRangeStep_ccn_le (st : CRangeState) (line : Str) :
    st.ccn ≤ (cRangeStep st line).ccn := by
  unfold cRangeStep
  dsimp only
  split
  · exact le_rfl
  · split
    · exact le_rfl
    · exact cRangeStepBlock_ccn_le _ _

theorem foldl_cRangeStep_ccn_le (l : List Str) (st : CRangeState) :
    st.ccn ≤ (l.foldl cRangeStep st).ccn := by
  induction l generalizing st with
  | nil => exact le_rfl
  | cons a l ih => exact le_trans (cRangeStep_ccn_le st a) (ih _)

theorem goStepCode_ccn_le (st : GoRangeState) (line t : Str) :
    st.ccn ≤ (goStepCode st line t).ccn := by
  have hsplit : ∀ (c : Prop) [Decidable c] (a b : GoRangeState),
      st.ccn ≤ a.ccn → st.ccn ≤ b.ccn → st.ccn ≤ (if c then a else b).ccn := by
    intro c inst a b ha hb
    split
    · exact ha
    · exact hb
  unfold goStepCode
  dsimp only
  apply hsplit <;> (try dsimp only) <;> apply hsplit <;> (try dsimp only) <;>
    apply hsplit <;> (try dsimp only) <;> omega

theorem goStepB_ccn_le (st : GoRangeState) (line t : Str) :
    st.ccn ≤ (goStepB st line t).ccn := by
  unfold goStepB
  dsimp only
  split
  · split
    · exact le_rfl
    · exact le_rfl
  · exact goStepCode_ccn_le _ _ _

theorem goStepA_ccn_le (st : GoRangeState) (line t : Str) :
    st.ccn ≤ (goStepA st line t).ccn := by
  unfold goStepA
  dsimp only
  split
  · split
    · exact le_rfl
    · exact goStepB_ccn_le _ _ _
  · exact goStepB_ccn_le _ _ _

theorem goRangeStep_ccn_le (ex : List LineRange) (st : GoRangeState) (p : Nat × Str) :
    st.ccn ≤ (goRangeStep ex st p).ccn := by
  unfold goRangeStep
  dsimp only
  split
  · exact le_rfl
  · split
    · exact le_rfl
    · split
      · exact le_rfl
      · split
        · exact le_rfl
        · exact goStepA_ccn_le _ _ _

theorem foldl_goRangeStep_ccn_le (ex : List LineRange) (l : List (Nat × Str))
    (st : GoRangeState) : st.ccn ≤ (l.foldl (goRangeStep ex) st).ccn := by
  induction l generalizing st with
  | nil => exact le_rfl
  | cons a l ih => exact le_trans (goRangeStep_ccn_le ex st a) (ih _)

/-- `0.95` really rounds to `float095`: the embedded conversion applied to
`19/20` yields exactly the constant used in the model. -/
theorem float095_is_roundtrip : floatRN (19 / 20) = float095 := by
  refine Rat.ext ?_ ?_
  · with_unfolding_all decide
  · with_unfolding_all decide

/-! ## C5/C6: engine and parser invariants -/

theorem foldl_cRangeStep_one_le (l : List Str) (st : CRangeState)
    (h : 1 ≤ st.ccn) : 1 ≤ (l.foldl cRangeStep st).ccn :=
  le_trans h (foldl_cRangeStep_ccn_le l st)

theorem foldl_goRangeStep_one_le (ex : List LineRange) (l : List (Nat × Str))
    (st : GoRangeState) (h : 1 ≤ st.ccn) :
    1 ≤ (l.foldl (goRangeStep ex) st).ccn :=
  le_trans h (foldl_goRangeStep_ccn_le ex l st)

theorem computeTextMetricsForRange_ccn (lines : List Str) (s e : Nat) :
    1 ≤ (computeTextMetricsForRange lines s e).ccn := by
  unfold computeTextMetricsForRange
  exact foldl_cRangeStep_one_le _ _ le_rfl

theorem computeTextMetricsForRangeWithExcludes_ccn (lines : List Str)
    (s e : Nat) (ex : List LineRange) :
    1 ≤ (computeTextMetricsForRangeWithExcludes lines s e ex).ccn := by
  unfold computeTextMetricsForRangeWithExcludes
  exact foldl_goRangeStep_one_le _ _ _ le_rfl

theorem cParseStepOutside_functions (lines : List Str) (p : CParseState)
    (i : Nat) (line : Str) :
    (cParseStepOutside lines p i line).functions = p.functions := by
  unfold cParseStepOutside
  dsimp only
  split
  · rfl
  · split
    · split
      · split
        · rfl
        · rfl
      · rfl
    · rfl

theorem cCloseFunction_functions_all (lines : List Str) (path : String)
    (p : CParseState) (i : Nat) (h : ∀ fn ∈ p.functions, 1 ≤ fn.CCN) :
    ∀ fn ∈ (cCloseFunction lines path p i).functions, 1 ≤ fn.CCN := by
  unfold cCloseFunction
  dsimp only
  intro fn hfn
  rcases List.mem_append.1 hfn with h1 | h2
  · exact h fn h1
  · rcases List.mem_singleton.1 h2 with rfl
    exact computeTextMetricsForRange_ccn lines p.funcStart (i + 1)

theorem cParseFoldl_functions_all (lines : List Str) (path : String)
    (l : List (Nat × Str)) (p : CParseState)
    (h : ∀ fn ∈ p.functions, 1 ≤ fn.CCN) :
    ∀ fn ∈ (l.foldl (cParseFold lines path) p).functions, 1 ≤ fn.CCN := by
  induction l generalizing p with
  | nil => exact h
  | cons a l ih =>
    refine ih _ ?_
    show ∀ fn ∈ (cParseFold lines path p a).functions, 1 ≤ fn.CCN
    unfold cParseFold
    split
    · intro fn hfn
      rw [cParseStepOutside_functions] at hfn
      exact h fn hfn
    · dsimp only
      split
      · exact cCloseFunction_functions_all _ _ _ _ h
      · exact h

theorem cParseFile_functions_all (path : String) (lines : List Str) :
    ∀ fn ∈ (cParseFile path lines).Functions, 1 ≤ fn.CCN := by
  intro fn hfn
  refine cParseFoldl_functions_all lines path lines.enum _ ?_ fn hfn
  intro g hg
  exact absurd hg (List.not_mem_nil g)

theorem analyzeGoFunction_main_ccn (path : String) (lines : List Str)
    (d : DeclInfo) : 1 ≤ (analyzeGoFunction path lines d).1.CCN := by
  unfold analyzeGoFunction
  exact computeTextMetricsForRangeWithExcludes_ccn _ _ _ _

theorem analyzeGoFunction_nested_ccn (path : String) (lines : List Str)
    (d : DeclInfo) :
    ∀ fn ∈ (analyzeGoFunction path lines d).2.1, 1 ≤ fn.CCN := by
  intro fn hfn
  simp only [analyzeGoFunction] at hfn
  rcases List.mem_filterMap.1 hfn with ⟨lit, _, hsome⟩
  rcases ite_eq_iff.1 hsome with ⟨_, habs⟩ | ⟨_, heq⟩
  · exact Option.noConfusion habs
  · rcases Option.some.inj heq with rfl
    exact computeTextMetricsForRangeWithExcludes_ccn _ _ _ _

theorem goParseInner_functions_all (l : List FunctionMetrics) :
    ∀ (acc : GoParseAcc), (∀ fn ∈ acc.functions, 1 ≤ fn.CCN) →
    (∀ fn ∈ l, 1 ≤ fn.CCN) →
    ∀ fn ∈ (l.foldl
      (fun a fn =>
        { a with functions := a.functions ++ [fn],
                 allNloc := a.allNloc + fn.NLOC,
                 allCcn := a.allCcn + fn.CCN,
                 maxCcn := max a.maxCcn fn.CCN,
                 gt10 := a.gt10 + (if 10 < fn.CCN then 1 else 0),
                 gt20 := a.gt20 + (if 20 < fn.CCN then 1 else 0) })
      acc).functions, 1 ≤ fn.CCN := by
  induction l with
  | nil =>
    intro acc hacc _
    exact hacc
  | cons b l ih =>
    intro acc hacc hl
    refine ih _ ?_ (fun fn hfn => hl fn (List.mem_cons_of_mem b hfn))
    intro fn hfn
    rcases List.mem_append.1 hfn with h1 | h2
    · exact hacc fn h1
    · rcases List.mem_singleton.1 h2 with rfl
      exact hl fn (List.mem_cons_self _ _)

theorem goParseStep_functions_all (path : String) (lines : List Str)
    (acc : GoParseAcc) (d : DeclInfo)
    (hacc : ∀ fn ∈ acc.functions, 1 ≤ fn.CCN) :
    ∀ fn ∈ (goParseStep path lines acc d).functions, 1 ≤ fn.CCN := by
  unfold goParseStep
  dsimp only
  split
  · exact hacc
  · refine goParseInner_functions_all _ _ hacc ?_
    intro fn hfn
    rcases List.mem_cons.1 hfn with h1 | h2
    · subst h1
      exact analyzeGoFunction_main_ccn path lines d
    · exact analyzeGoFunction_nested_ccn path lines d fn h2

theorem goParseFoldl_functions_all (path : String) (lines : List Str)
    (decls : List DeclInfo) (acc : GoParseAcc)
    (hacc : ∀ fn ∈ acc.functions, 1 ≤ fn.CCN) :
    ∀ fn ∈ (decls.foldl (goParseStep path lines) acc).functions, 1 ≤ fn.CCN := by
  induction decls generalizing acc with
  | nil => exact hacc
  | cons d decls ih => exact ih _ (goParseStep_functions_all path lines acc d hacc)

theorem goParseFile_functions_all (path : String) (lines : List Str)
    (decls : List DeclInfo) :
    ∀ fn ∈ (goParseFile path lines decls).Functions, 1 ≤ fn.CCN := by
  intro fn hfn
  refine goParseFoldl_functions_all path lines decls _ ?_ fn hfn
  intro g hg
  exact absurd hg (List.not_mem_nil g)

/-- C5: the shared metric engines return `CCN ≥ 1` on every input lines
array and line range (with or without excluded sub-ranges), and hence
every `FunctionMetrics` either parser produces has `CCN ≥ 1`. -/
theorem engines_and_parsers_ccn_ge_one :
    (∀ lines s e, 1 ≤ (computeTextMetricsForRange lines s e).ccn) ∧
    (∀ lines s e ex, 1 ≤ (computeTextMetricsForRangeWithExcludes lines s e ex).ccn) ∧
    (∀ path lines, ∀ fn ∈ (cParseFile path lines).Functions, 1 ≤ fn.CCN) ∧
    (∀ path lines decls, ∀ fn ∈ (goParseFile path lines decls).Functions, 1 ≤ fn.CCN) :=
  ⟨computeTextMetricsForRange_ccn, computeTextMetricsForRangeWithExcludes_ccn,
   cParseFile_functions_all, goParseFile_functions_all⟩

/-- Witness for C5 at a concrete input: the spec's scenario function
`int add(int a,int b)\x7b if(a>0 && b>0)\x7b return a+b;\x7d return a+b; \x7d`
(CCN `3 = 1 + if + &&`), and a concrete Go range. -/
theorem engines_and_parsers_ccn_ge_one_witness :
    1 ≤ (computeTextMetricsForRange
          [strL "int add(int a,int b)\x7b", strL "  if(a>0 && b>0)\x7b return a+b;\x7d",
           strL "  return a+b;", strL "\x7d"] 1 4).ccn ∧
    (computeTextMetricsForRange
          [strL "int add(int a,int b)\x7b", strL "  if(a>0 && b>0)\x7b return a+b;\x7d",
           strL "  return a+b;", strL "\x7d"] 1 4).ccn = 3 ∧
    (∀ fn ∈ (cParseFile "t.c"
          [strL "int add(int a,int b)\x7b", strL "  if(a>0 && b>0)\x7b return a+b;\x7d",
           strL "  return a+b;", strL "\x7d"]).Functions, 1 ≤ fn.CCN) :=
  ⟨engines_and_parsers_ccn_ge_one.1 _ 1 4, by decide,
   engines_and_parsers_ccn_ge_one.2.2.1 "t.c" _⟩

theorem cParseFile_count (path : String) (lines : List Str) :
    (cParseFile path lines).Summary.FunctionsCount =
      (cParseFile path lines).Functions.length := rfl

theorem goParseFile_count (path : String) (lines : List Str)
    (decls : List DeclInfo) :
    (goParseFile path lines decls).Summary.FunctionsCount =
      (goParseFile path lines decls).Functions.length := rfl

/-- C6: for every input on which a parser succeeds, the returned
`FileMetrics` satisfies `Summary.FunctionsCount = len(Functions)` (the C
parser never fails; a failing Go parse returns before building any
`FileMetrics`). -/
theorem parsers_functionsCount_eq_length :
    (∀ path lines, (cParseFile path lines).Summary.FunctionsCount =
      (cParseFile path lines).Functions.length) ∧
    (∀ path lines decls, (goParseFile path lines decls).Summary.FunctionsCount =
      (goParseFile path lines decls).Functions.length) :=
  ⟨cParseFile_count, goParseFile_count⟩

/-! ## C10: empty report format defaults to the "text" renderer -/

/-- C10: with an empty `Format`, `GenerateReportUseCase.Execute` looks up
the renderer registered under `"text"` and renders with it; it does not
fail with an unknown-format error unless no `"text"` renderer is
registered. -/
theorem generateReport_empty_format_uses_text (rs : List RendererM)
    (rep : ProjectReport) (root : String) :
    (∀ r, registryGet rs "text" = some r →
      generateReportExecute (Except.ok rep) rs { RootPath := root, Format := "" } =
        r.render rep) ∧
    (registryGet rs "text" = none →
      generateReportExecute (Except.ok rep) rs { RootPath := root, Format := "" } =
        Except.error "unknown format \x22text\x22") := by
  have e1 : toLowerS "" = "" := rfl
  constructor
  · intro r h
    unfold generateReportExecute
    dsimp only
    rw [e1, if_pos rfl, h]
  · intro h
    unfold generateReportExecute
    dsimp only
    rw [e1, if_pos rfl, h]
    rfl

/-- Witness for C10 at a concrete registry and report: the empty format is
resolved to the `"text"` renderer (registered case-insensitively) and the
run renders instead of failing. -/
theorem generateReport_empty_format_uses_text_witness :
    generateReportExecute (Except.ok (buildProjectReport "/p" [] []))
        [c10Renderer] { RootPath := "/p", Format := "" } =
      Except.ok "rendered" :=
  (generateReport_empty_format_uses_text [c10Renderer]
    (buildProjectReport "/p" [] []) "/p").1 c10Renderer rfl

/-! ## C9: the git CLI collaborator never reports an error -/

theorem processFiles_warnings_eq (c : Collabs) (req : AnalyzeProjectRequest)
    (filesList : List String) (hroot : req.RootPath ≠ "")
    (hscan : c.scan = Except.ok filesList) (hne : filesList.length ≠ 0)
    (hgit : c.git.2 = none) (rep : ProjectReport)
    (hok : execute c req = Except.ok rep) :
    rep.Warnings = (processFiles c filesList).2 := by
  unfold execute at hok
  rw [if_neg hroot, hscan] at hok
  dsimp only at hok
  rw [if_neg hne] at hok
  rw [hgit] at hok
  dsimp only at hok
  split at hok
  · exact Except.noConfusion hok
  · rcases Except.ok.inj hok with rfl
    show (buildProjectReport _ _ _).Warnings = _
    simp only [buildProjectReport]
    exact List.append_nil _

/-- C9: `GitCLI.CollectFileMetrics` returns a nil error on every possible
outcome of the underlying `git` process (on command failure it returns an
empty map and nil), and under any collaborator whose git error is nil the
orchestrator's report carries exactly the per-file read/parse warnings —
the `git metrics disabled` branch is unreachable. -/
theorem gitCLI_never_errors :
    (∀ cmdOut, (gitCLICollectFileMetrics cmdOut).2 = none) ∧
    (∀ (c : Collabs) (req : AnalyzeProjectRequest) (filesList : List String),
      req.RootPath ≠ "" → c.scan = Except.ok filesList →
      filesList.length ≠ 0 → c.git.2 = none →
      ∀ rep, execute c req = Except.ok rep →
        rep.Warnings = (processFiles c filesList).2) := by
  constructor
  · intro cmdOut
    cases cmdOut with
    | none => rfl
    | some lines => rfl
  · intro c req filesList hroot hscan hne hgit rep hok
    exact processFiles_warnings_eq c req filesList hroot hscan hne hgit rep hok

/-- Witness for C9 at concrete inputs: a failing and a succeeding git
command both yield a nil error, and a run wired with the failing git CLI
yields a report whose warnings are exactly the per-file ones. -/
theorem gitCLI_never_errors_witness :
    (gitCLICollectFileMetrics none).2 = none ∧
    (gitCLICollectFileMetrics (some ["commit:abc:ann:fix bug", "3 1 a.c"])).2 = none ∧
    (buildProjectReport "/p" [] []).Warnings = (processFiles c9Collabs ["a.c"]).2 := by
  refine ⟨gitCLI_never_errors.1 none,
          gitCLI_never_errors.1 (some ["commit:abc:ann:fix bug", "3 1 a.c"]), ?_⟩
  exact gitCLI_never_errors.2 c9Collabs { RootPath := "/p", IncludeExt := [] }
    ["a.c"] (by decide) rfl (by decide) rfl (buildProjectReport "/p" [] []) rfl

/-- Counterexample to C1 as stated: a run whose file-list scan succeeds
and returns one file, with every read, parse and git step succeeding,
still fails fatally (no report) because persisting the report fails —
a fatal failure the claim does not allow. -/
theorem execute_fatal_beyond_scan :
    c1Collabs.scan = Except.ok ["a.c"] ∧ (["a.c"] : List String).length ≠ 0 ∧
    execute c1Collabs { RootPath := "/p", IncludeExt := [] } =
      Except.error "save report: disk full" := by
  refine ⟨rfl, by decide, ?_⟩
  rfl

/-- C1 (amended): a run fails fatally only if the root path is empty, the
initial scan fails or returns zero files, or persisting the final report
fails; and whenever the root path is non-empty, the scan returns a
non-empty file list and the storage accepts the report, the run returns a
report even in the presence of read, parse and git failures, whose
warnings are exactly the per-file warnings followed by the git warning. -/
theorem execute_fatal_only_scan_or_save (c : Collabs)
    (req : AnalyzeProjectRequest) :
    (∀ e, execute c req = Except.error e →
      req.RootPath = "" ∨ (∃ es, c.scan = Except.error es) ∨
      c.scan = Except.ok [] ∨ (∃ rep es, c.save req.RootPath rep = some es)) ∧
    (∀ filesList, req.RootPath ≠ "" → c.scan = Except.ok filesList →
      filesList ≠ [] → (∀ rep, c.save req.RootPath rep = none) →
      ∃ rep, execute c req = Except.ok rep ∧
        rep.Warnings = (processFiles c filesList).2 ++
          (match c.git.2 with
           | some e => ["git metrics disabled: " ++ e]
           | none => [])) := by
  constructor
  · intro e herr
    unfold execute at herr
    by_cases hroot : req.RootPath = ""
    · exact Or.inl hroot
    · rw [if_neg hroot] at herr
      rcases hscan : c.scan with es | filesList
      · exact Or.inr (Or.inl ⟨es, rfl⟩)
      · rw [hscan] at herr
        dsimp only at herr
        by_cases hlen : filesList.length = 0
        · refine Or.inr (Or.inr (Or.inl ?_))
          rw [List.length_eq_zero.1 hlen]
        · rw [if_neg hlen] at herr
          refine Or.inr (Or.inr (Or.inr ?_))
          split at herr
          · rename_i es heq
            exact ⟨_, es, heq⟩
          · exact Except.noConfusion herr
  · intro filesList hroot hscan hne hsave
    unfold execute
    rw [if_neg hroot, hscan]
    dsimp only
    rw [if_neg (fun h => hne (List.length_eq_zero.1 h))]
    rw [hsave]
    refine ⟨_, rfl, ?_⟩
    show (buildProjectReport _ _ _).Warnings = _
    simp only [buildProjectReport]

/-- Witness for the amended C1 at concrete inputs: an unreadable file and
a failing git collaborator degrade to warnings and the run still returns
a report. -/
theorem execute_fatal_only_scan_or_save_witness :
    ∃ rep, execute c1WitCollabs { RootPath := "/p", IncludeExt := [] } =
        Except.ok rep ∧
      rep.Warnings = (processFiles c1WitCollabs ["a.c", "b.c"]).2 ++
        ["git metrics disabled: not a git repo"] :=
  (execute_fatal_only_scan_or_save c1WitCollabs
      { RootPath := "/p", IncludeExt := [] }).2
    ["a.c", "b.c"] (by decide) rfl (by decide) (fun _ => rfl)

/-! ## C4: fan-in of uniquely named functions -/

theorem countP_indicator_of_nodup (name : String) (l : List String)
    (hn : l.Nodup) :
    l.countP (fun c => decide (c = name)) = if name ∈ l then 1 else 0 := by
  induction l with
  | nil => simp
  | cons a l ih =>
    rcases List.nodup_cons.1 hn with ⟨ha, hl⟩
    rw [List.countP_cons, ih hl]
    by_cases hme : a = name
    · subst hme
      rw [if_neg ha, if_pos (List.mem_cons_self a l)]
      simp
    · have hco : (name ∈ a :: l) ↔ (name ∈ l) := by
        constructor
        · intro hmem
          rcases List.mem_cons.1 hmem with h1 | h2
          · exact absurd h1.symm hme
          · exact h2
        · exact List.mem_cons_of_mem a
      by_cases hml : name ∈ l
      · rw [if_pos hml, if_pos (hco.2 hml)]
        simp [hme]
      · rw [if_neg hml, if_neg (fun hmem => hml (hco.1 hmem))]
        simp [hme]

theorem sum_countP_eq_countP_mem (name : String) (fns : List FunctionMetrics) :
    (∀ fn ∈ fns, fn.Callees.Nodup) →
    (fns.map (fun fn => fn.Callees.countP (fun c => decide (c = name)))).sum
      = fns.countP (fun fn => decide (name ∈ fn.Callees)) := by
  induction fns with
  | nil =>
    intro _
    rfl
  | cons fn fns ih =>
    intro hnd
    rw [List.map_cons, List.sum_cons, List.countP_cons,
      ih (fun g hg => hnd g (List.mem_cons_of_mem fn hg)),
      countP_indicator_of_nodup name fn.Callees (hnd fn (List.mem_cons_self fn fns))]
    by_cases hm : name ∈ fn.Callees
    · simp [hm, Nat.add_comm]
    · simp [hm]

theorem calleeOccurrences_eq_callSiteCount (name : String)
    (files : List FileMetrics) :
    (∀ f ∈ files, ∀ fn ∈ f.Functions, fn.Callees.Nodup) →
    calleeOccurrences files name = callSiteCount files name := by
  unfold calleeOccurrences callSiteCount
  induction files with
  | nil =>
    intro _
    rfl
  | cons f files ih =>
    intro hnd
    rw [List.map_cons, List.sum_cons, List.flatMap_cons, List.countP_append,
      ih (fun g hg fn hfn => hnd g (List.mem_cons_of_mem f hg) fn hfn),
      sum_countP_eq_countP_mem name f.Functions
        (fun fn hfn => hnd f (List.mem_cons_self f files) fn hfn)]

/-- C4: after the coupling pass, every function with a non-empty name,
zero initial fan-in and (as both parsers guarantee) duplicate-free callee
lists — in particular every uniquely named one — has `FanIn` equal to the
number of distinct call sites anywhere in the project naming it, and `0`
when nothing names it. -/
theorem coupling_unique_name_fanin (files : List FileMetrics) :
    List.Forall₂ (fun f f' =>
      List.Forall₂ (fun fn fn' =>
        fn.Name ≠ "" → fn.FanIn = 0 →
        (∀ g ∈ files, ∀ hfun ∈ g.Functions,
          (FunctionMetrics.Callees hfun).Nodup) →
        nameCount files fn.Name = 1 →
        (fn'.FanIn = callSiteCount files fn.Name ∧
         (callSiteCount files fn.Name = 0 → fn'.FanIn = 0)))
        f.Functions f'.Functions)
      files (annotateFunctionCoupling files) := by
  unfold annotateFunctionCoupling
  rw [List.forall₂_map_right_iff, List.forall₂_same]
  intro f hf
  rw [List.forall₂_map_right_iff, List.forall₂_same]
  intro fn hfn hname hzero hnodup _
  rw [if_neg hname]
  have hocc : fn.FanIn + calleeOccurrences files fn.Name =
      callSiteCount files fn.Name := by
    rw [hzero, Nat.zero_add]
    exact calleeOccurrences_eq_callSiteCount fn.Name files hnodup
  exact ⟨hocc, fun h0 => by rw [hocc, h0]⟩

/-- Witness for C4 at concrete inputs: `beta` is called from exactly one
call site and its fan-in after the coupling pass is that count, `1`. -/
theorem coupling_unique_name_fanin_witness :
    callSiteCount c4Files "beta" = 1 ∧
    ∃ fn', fn'.FanIn = callSiteCount c4Files "beta" ∧
      (annotateFunctionCoupling c4Files).flatMap
        (fun f => f.Functions) = [fnAlpha, fn'] := by
  have h := coupling_unique_name_fanin c4Files
  cases h with
  | cons hA htail =>
    cases htail with
    | cons hB _ =>
      cases hB with
      | cons hfn _ =>
        exact ⟨by decide, _,
          (hfn (by decide) rfl (by decide) (by decide)).1, rfl⟩

/-! ## C2: hotspot scores are `CCN × ln(1+churn)`; zero churn contributes
nothing -/

theorem cCloseFunction_functions_hs0 (lines : List Str) (path : String)
    (p : CParseState) (i : Nat)
    (h : ∀ fn ∈ p.functions, fn.HotspotScore = 0) :
    ∀ fn ∈ (cCloseFunction lines path p i).functions, fn.HotspotScore = 0 := by
  unfold cCloseFunction
  dsimp only
  intro fn hfn
  rcases List.mem_append.1 hfn with h1 | h2
  · exact h fn h1
  · rcases List.mem_singleton.1 h2 with rfl
    rfl

theorem cParseFoldl_functions_hs0 (lines : List Str) (path : String)
    (l : List (Nat × Str)) (p : CParseState)
    (h : ∀ fn ∈ p.functions, fn.HotspotScore = 0) :
    ∀ fn ∈ (l.foldl (cParseFold lines path) p).functions, fn.HotspotScore = 0 := by
  induction l generalizing p with
  | nil => exact h
  | cons a l ih =>
    refine ih _ ?_
    show ∀ fn ∈ (cParseFold lines path p a).functions, fn.HotspotScore = 0
    unfold cParseFold
    split
    · intro fn hfn
      rw [cParseStepOutside_functions] at hfn
      exact h fn hfn
    · dsimp only
      split
      · exact cCloseFunction_functions_hs0 _ _ _ _ h
      · exact h

theorem cParseFile_functions_hs0 (path : String) (lines : List Str) :
    ∀ fn ∈ (cParseFile path lines).Functions, fn.HotspotScore = 0 := by
  intro fn hfn
  refine cParseFoldl_functions_hs0 lines path lines.enum _ ?_ fn hfn
  intro g hg
  exact absurd hg (List.not_mem_nil g)

theorem analyzeGoFunction_main_hs0 (path : String) (lines : List Str)
    (d : DeclInfo) : (analyzeGoFunction path lines d).1.HotspotScore = 0 := by
  unfold analyzeGoFunction
  rfl

theorem analyzeGoFunction_nested_hs0 (path : String) (lines : List Str)
    (d : DeclInfo) :
    ∀ fn ∈ (analyzeGoFunction path lines d).2.1, fn.HotspotScore = 0 := by
  intro fn hfn
  simp only [analyzeGoFunction] at hfn
  rcases List.mem_filterMap.1 hfn with ⟨lit, _, hsome⟩
  rcases ite_eq_iff.1 hsome with ⟨_, habs⟩ | ⟨_, heq⟩
  · exact Option.noConfusion habs
  · rcases Option.some.inj heq with rfl
    rfl

theorem goParseInner_functions_hs0 (l : List FunctionMetrics) :
    ∀ (acc : GoParseAcc), (∀ fn ∈ acc.functions, fn.HotspotScore = 0) →
    (∀ fn ∈ l, fn.HotspotScore = 0) →
    ∀ fn ∈ (l.foldl
      (fun a fn =>
        { a with functions := a.functions ++ [fn],
                 allNloc := a.allNloc + fn.NLOC,
                 allCcn := a.allCcn + fn.CCN,
                 maxCcn := max a.maxCcn fn.CCN,
                 gt10 := a.gt10 + (if 10 < fn.CCN then 1 else 0),
                 gt20 := a.gt20 + (if 20 < fn.CCN then 1 else 0) })
      acc).functions, fn.HotspotScore = 0 := by
  induction l with
  | nil =>
    intro acc hacc _
    exact hacc
  | cons b l ih =>
    intro acc hacc hl
    refine ih _ ?_ (fun fn hfn => hl fn (List.mem_cons_of_mem b hfn))
    intro fn hfn
    rcases List.mem_append.1 hfn with h1 | h2
    · exact hacc fn h1
    · rcases List.mem_singleton.1 h2 with rfl
      exact hl fn (List.mem_cons_self _ _)

theorem goParseFile_functions_hs0 (path : String) (lines : List Str)
    (decls : List DeclInfo) :
    ∀ fn ∈ (goParseFile path lines decls).Functions, fn.HotspotScore = 0 := by
  have step : ∀ (acc : GoParseAcc) (d : DeclInfo),
      (∀ fn ∈ acc.functions, fn.HotspotScore = 0) →
      ∀ fn ∈ (goParseStep path lines acc d).functions, fn.HotspotScore = 0 := by
    intro acc d hacc
    unfold goParseStep
    dsimp only
    split
    · exact hacc
    · refine goParseInner_functions_hs0 _ _ hacc ?_
      intro fn hfn
      rcases List.mem_cons.1 hfn with h1 | h2
      · subst h1
        exact analyzeGoFunction_main_hs0 path lines d
      · exact analyzeGoFunction_nested_hs0 path lines d fn h2
  have fold : ∀ (ds : List DeclInfo) (acc : GoParseAcc),
      (∀ fn ∈ acc.functions, fn.HotspotScore = 0) →
      ∀ fn ∈ (ds.foldl (goParseStep path lines) acc).functions,
        fn.HotspotScore = 0 := by
    intro ds
    induction ds with
    | nil => intro acc hacc _ hfn; exact hacc _ hfn
    | cons d ds ih => intro acc hacc; exact ih _ (step acc d hacc)
  intro fn hfn
  refine fold decls _ ?_ fn hfn
  intro g hg
  exact absurd hg (List.not_mem_nil g)

theorem length_filterMap_eq_countP {α β : Type} (f : α → Option β)
    (l : List α) :
    (l.filterMap f).length = l.countP (fun a => (f a).isSome) := by
  induction l with
  | nil => rfl
  | cons a l ih =>
    rw [List.filterMap_cons, List.countP_cons]
    cases hfa : f a
    · simp [hfa, ih]
    · simp [hfa, ih, Nat.add_comm]

theorem hotspotOf_isSome (f : FileMetrics) :
    (hotspotOf f).isSome = (match f.Git with
      | some g => decide (f.Summary.CCNTotal ≠ 0)
          && decide (g.LinesAdded + g.LinesDeleted ≠ 0)
      | none => false) := by
  unfold hotspotOf
  by_cases hccn : f.Summary.CCNTotal = 0
  · rw [if_pos hccn]
    rcases hgit : f.Git with _ | g
    · simp
    · simp [hccn]
  · rw [if_neg hccn]
    rcases hgit : f.Git with _ | g
    · simp
    · dsimp only
      by_cases hch : g.LinesAdded + g.LinesDeleted = 0
      · rw [if_pos hch]
        simp [hccn, hch]
      · rw [if_neg hch]
        simp [hccn, hch]

/-- C2: each collected file with git data, nonzero churn and nonzero total
CCN contributes exactly one hotspot, with score `CCN × ln(1 + churn)`
(and the file's CCN and churn recorded); files with zero churn or no git
data contribute none; `annotateFunctionHotspots` writes
`CCN × ln(1 + churn)` into every function of a nonzero-churn file with git
data and leaves every other file — hence its functions' zero-default
scores, which both parsers initialize to `0` — untouched. -/
theorem hotspot_score_formula (files : List FileMetrics) :
    ((hotspotCandidates files).length = files.countP (fun f =>
      match f.Git with
      | some g => decide (f.Summary.CCNTotal ≠ 0)
          && decide (g.LinesAdded + g.LinesDeleted ≠ 0)
      | none => false)) ∧
    (∀ f ∈ files, ∀ g, f.Git = some g → f.Summary.CCNTotal ≠ 0 →
      g.LinesAdded + g.LinesDeleted ≠ 0 →
      ({ FilePath := f.Path, Reason := "complexity × churn",
         Score := fnScore f.Summary.CCNTotal (g.LinesAdded + g.LinesDeleted),
         CCN := f.Summary.CCNTotal,
         Churn := g.LinesAdded + g.LinesDeleted } : Hotspot)
        ∈ hotspotCandidates files) ∧
    (∀ f, (f.Git = none ∨ ∃ g, f.Git = some g ∧ g.LinesAdded + g.LinesDeleted = 0) →
      hotspotOf f = none) ∧
    List.Forall₂ hotspotAnnRel files (annotateFunctionHotspots files) ∧
    (∀ path lines, ∀ fn ∈ (cParseFile path lines).Functions, fn.HotspotScore = 0) ∧
    (∀ path lines decls, ∀ fn ∈ (goParseFile path lines decls).Functions,
      fn.HotspotScore = 0) := by
  refine ⟨?_, ?_, ?_, ?_, cParseFile_functions_hs0, goParseFile_functions_hs0⟩
  · rw [hotspotCandidates, length_filterMap_eq_countP]
    exact List.countP_congr (fun f _ => by rw [hotspotOf_isSome f])
  · intro f hf g hgit hccn hch
    refine List.mem_filterMap.2 ⟨f, hf, ?_⟩
    unfold hotspotOf
    rw [if_neg hccn, hgit]
    dsimp only
    rw [if_neg hch]
    rfl
  · intro f hcase
    unfold hotspotOf
    rcases hcase with hnone | ⟨g, hgit, hch⟩
    · rw [hnone]
      dsimp only
      split <;> rfl
    · rw [hgit]
      dsimp only
      rw [if_pos hch]
      split <;> rfl
  · unfold annotateFunctionHotspots
    rw [List.forall₂_map_right_iff, List.forall₂_same]
    intro f _
    constructor
    · intro hcase
      rcases hcase with hnone | ⟨g, hgit, hch⟩
      · rw [hnone]
      · rw [hgit]
        dsimp only
        rw [if_pos hch]
    · intro g hgit hch
      rw [hgit]
      dsimp only
      rw [if_neg hch]
      rw [List.forall₂_map_right_iff, List.forall₂_same]
      intro fn _
      rfl

/-- Witness for C2 at concrete inputs: the churn-2/CCN-3 file contributes
the hotspot `3 × ln(1+2)`, and the zero-churn file contributes nothing. -/
theorem hotspot_score_formula_witness :
    ({ FilePath := "a.c", Reason := "complexity × churn",
       Score := fnScore 3 2, CCN := 3, Churn := 2 } : Hotspot)
      ∈ hotspotCandidates [c2FileHot, c2FileZero] ∧
    hotspotOf c2FileZero = none := by
  constructor
  · exact (hotspot_score_formula [c2FileHot, c2FileZero]).2.1 c2FileHot
      (List.mem_cons_self _ _) c2Git rfl (by decide) (by decide)
  · exact (hotspot_score_formula [c2FileHot, c2FileZero]).2.2.1 c2FileZero
      (Or.inr ⟨c2GitZero, rfl, rfl⟩)

theorem hotspotCandidates_wellFormed (files : List FileMetrics) :
    ∀ h ∈ hotspotCandidates files, hotspotWellFormed h := by
  intro h hh
  rcases List.mem_filterMap.1 hh with ⟨f, _, hsome⟩
  unfold hotspotOf at hsome
  split at hsome
  · exact Option.noConfusion hsome
  · rcases hgit : f.Git with _ | g
    · rw [hgit] at hsome
      exact Option.noConfusion hsome
    · rw [hgit] at hsome
      dsimp only at hsome
      split at hsome
      · exact Option.noConfusion hsome
      · rcases Option.some.inj hsome with rfl
        rfl

/-- Comparing the integer sort keys is comparing the real scores. -/
theorem hotspotBefore_iff_score_le (a b : Hotspot)
    (ha : hotspotWellFormed a) (hb : hotspotWellFormed b) :
    hotspotBefore a b ↔ b.Score ≤ a.Score := by
  have hya : (0 : ℝ) < (1 + (a.Churn : ℝ)) ^ a.CCN := pow_pos (by positivity) _
  have hyb : (0 : ℝ) < (1 + (b.Churn : ℝ)) ^ b.CCN := pow_pos (by positivity) _
  rw [ha, hb]
  unfold fnScore
  rw [← Real.log_pow, ← Real.log_pow, Real.log_le_log_iff hyb hya]
  unfold hotspotBefore hotspotKey
  rw [← @Nat.cast_le ℝ]
  push_cast
  rfl

theorem buildHotspots_eq_take (files : List FileMetrics) :
    buildHotspots files =
      ((hotspotCandidates files).insertionSort hotspotBefore).take 10 := by
  unfold buildHotspots
  dsimp only
  split
  · rfl
  · rename_i hlen
    exact (List.take_of_length_le (le_of_not_lt hlen)).symm

/-- C3: the returned hotspot list is sorted by descending score, its
length is exactly `min 10 (#qualifying files)`, it is a top-10 selection
(the remaining candidates all score no higher than anything kept), and
when at most 10 files qualify it is exactly the qualifying hotspots in
descending score order. -/
theorem buildHotspots_sorted_top10 (files : List FileMetrics) :
    List.Sorted (fun a b => b.Score ≤ a.Score) (buildHotspots files) ∧
    (buildHotspots files).length = min 10 (hotspotCandidates files).length ∧
    (∃ rest, (buildHotspots files ++ rest).Perm (hotspotCandidates files) ∧
      ∀ x ∈ buildHotspots files, ∀ y ∈ rest, y.Score ≤ x.Score) ∧
    ((hotspotCandidates files).length ≤ 10 →
      (buildHotspots files).Perm (hotspotCandidates files)) := by
  have hperm : ((hotspotCandidates files).insertionSort hotspotBefore).Perm
      (hotspotCandidates files) := List.perm_insertionSort _ _
  have hwf : ∀ h ∈ (hotspotCandidates files).insertionSort hotspotBefore,
      hotspotWellFormed h :=
    fun h hh => hotspotCandidates_wellFormed files h (hperm.mem_iff.1 hh)
  have hsorted : List.Sorted hotspotBefore
      ((hotspotCandidates files).insertionSort hotspotBefore) :=
    List.sorted_insertionSort _ _
  have heq := buildHotspots_eq_take files
  refine ⟨?_, ?_, ?_, ?_⟩
  · rw [heq]
    have h1 : List.Pairwise hotspotBefore
        (((hotspotCandidates files).insertionSort hotspotBefore).take 10) :=
      List.Pairwise.sublist (List.take_sublist _ _) hsorted
    refine h1.imp_of_mem ?_
    intro x y hx hy hr
    exact (hotspotBefore_iff_score_le x y
      (hwf x (List.mem_of_mem_take hx))
      (hwf y (List.mem_of_mem_take hy))).1 hr
  · rw [heq, List.length_take, hperm.length_eq]
  · refine ⟨((hotspotCandidates files).insertionSort hotspotBefore).drop 10,
      ?_, ?_⟩
    · rw [heq, List.take_append_drop]
      exact hperm
    · intro x hx y hy
      rw [heq] at hx
      have hps := hsorted
      rw [← List.take_append_drop 10
        ((hotspotCandidates files).insertionSort hotspotBefore)] at hps
      have hr := (List.pairwise_append.1 hps).2.2 x hx y hy
      exact (hotspotBefore_iff_score_le x y
        (hwf x (List.mem_of_mem_take hx))
        (hwf y (List.mem_of_mem_drop hy))).1 hr
  · intro hle
    rw [heq, List.take_of_length_le (by rw [hperm.length_eq]; exact hle)]
    exact hperm

/-- Witness for C3 at concrete inputs: with two qualifying files the
returned list has length `min 10 2 = 2` and is a permutation of (exactly)
the qualifying hotspots. -/
theorem buildHotspots_sorted_top10_witness :
    (buildHotspots c3Files).length = min 10 (hotspotCandidates c3Files).length ∧
    (buildHotspots c3Files).Perm (hotspotCandidates c3Files) :=
  ⟨(buildHotspots_sorted_top10 c3Files).2.1,
   (buildHotspots_sorted_top10 c3Files).2.2.2 (by decide)⟩

/-! ## C8: order-independence of the statistics pass (all fields except the
float64-accumulated comment-density average) -/

/-- C8 (corrected): permuting the collected `FileMetrics` leaves every
field of the computed `ProjectMetrics` unchanged EXCEPT `CommentDensityAvg`
(sums, counts, maxima, the integer-data averages and the statistics over
the explicitly re-sorted size list are all permutation-invariant; the
comment-density average is accumulated in `float64`, whose rounding is
order-dependent). -/
theorem buildProjectMetrics_perm_except_density (files files' : List FileMetrics)
    (hp : files.Perm files') :
    { buildProjectMetrics files with CommentDensityAvg := 0 } =
      { buildProjectMetrics files' with CommentDensityAvg := 0 } := by
  have hfns : (allFns files).Perm (allFns files') := by
    unfold allFns
    exact List.Perm.flatMap_right _ hp
  have hsizes : ((allFns files).map (fun fn => fn.NLOC)).Perm
      ((allFns files').map (fun fn => fn.NLOC)) := hfns.map _
  have hsorted : ((allFns files).map (fun fn => fn.NLOC)).insertionSort (· ≤ ·) =
      ((allFns files').map (fun fn => fn.NLOC)).insertionSort (· ≤ ·) :=
    List.eq_of_perm_of_sorted
      ((List.perm_insertionSort _ _).trans
        (hsizes.trans (List.perm_insertionSort _ _).symm))
      (List.sorted_insertionSort _ _) (List.sorted_insertionSort _ _)
  have hlenfiles : files.length = files'.length := hp.length_eq
  have hTF : (files.map (fun f => f.Functions.length)).sum =
      (files'.map (fun f => f.Functions.length)).sum := (hp.map _).sum_eq
  have hCCN : (files.map (fun f => f.Summary.CCNTotal)).sum =
      (files'.map (fun f => f.Summary.CCNTotal)).sum := (hp.map _).sum_eq
  have hgt10 : (files.map (fun f => f.Summary.FunctionsCCNGt10)).sum =
      (files'.map (fun f => f.Summary.FunctionsCCNGt10)).sum := (hp.map _).sum_eq
  have hgt20 : (files.map (fun f => f.Summary.FunctionsCCNGt20)).sum =
      (files'.map (fun f => f.Summary.FunctionsCCNGt20)).sum := (hp.map _).sum_eq
  have hmax : files.foldl (fun a f => max a f.Summary.CCNMaxFunction) 0 =
      files'.foldl (fun a f => max a f.Summary.CCNMaxFunction) 0 := by
    letI : Std.Commutative (α := ℕ) max := ⟨fun a b => max_comm a b⟩
    letI : RightCommutative (fun (a : ℕ) (f : FileMetrics) =>
        max a f.Summary.CCNMaxFunction) :=
      ⟨fun b a1 a2 => by omega⟩
    exact hp.foldl_eq 0
  have hgits : (files.filterMap (fun f => f.Git)).Perm
      (files'.filterMap (fun f => f.Git)) := hp.filterMap _
  have hga : ((files.filterMap (fun f => f.Git)).map (fun g => g.LinesAdded)).sum =
      ((files'.filterMap (fun f => f.Git)).map (fun g => g.LinesAdded)).sum :=
    (hgits.map _).sum_eq
  have hgd : ((files.filterMap (fun f => f.Git)).map (fun g => g.LinesDeleted)).sum =
      ((files'.filterMap (fun f => f.Git)).map (fun g => g.LinesDeleted)).sum :=
    (hgits.map _).sum_eq
  have hgc : ((files.filterMap (fun f => f.Git)).map (fun g => g.Commits)).sum =
      ((files'.filterMap (fun f => f.Git)).map (fun g => g.Commits)).sum :=
    (hgits.map _).sum_eq
  have hc50 : (allFns files).countP (fun fn => decide (50 < fn.NLOC)) =
      (allFns files').countP (fun fn => decide (50 < fn.NLOC)) := hfns.countP_eq _
  have hc80 : (allFns files).countP (fun fn => decide (80 < fn.NLOC)) =
      (allFns files').countP (fun fn => decide (80 < fn.NLOC)) := hfns.countP_eq _
  have hc100 : (allFns files).countP (fun fn => decide (100 < fn.NLOC)) =
      (allFns files').countP (fun fn => decide (100 < fn.NLOC)) := hfns.countP_eq _
  have hcp5 : (allFns files).countP (fun fn => decide (5 ≤ fn.Parameters)) =
      (allFns files').countP (fun fn => decide (5 ≤ fn.Parameters)) := hfns.countP_eq _
  have hsump : ((allFns files).map (fun fn => (fn.Parameters : ℚ))).sum =
      ((allFns files').map (fun fn => (fn.Parameters : ℚ))).sum := (hfns.map _).sum_eq
  have hsl : ((allFns files).map (fun fn => fn.NLOC)).length =
      ((allFns files').map (fun fn => fn.NLOC)).length := hsizes.length_eq
  simp only [buildProjectMetrics]
  rw [hsorted, hlenfiles, hTF, hCCN, hgt10, hgt20, hmax,
    hga, hgd, hgc, hc50, hc80, hc100, hcp5, hsump, hsl]

/-- Witness for C8 at concrete inputs: swapping two files leaves every
field other than `CommentDensityAvg` identical. -/
theorem buildProjectMetrics_perm_except_density_witness :
    { buildProjectMetrics [c8FileA, c8FileB] with CommentDensityAvg := 0 } =
      { buildProjectMetrics [c8FileB, c8FileA] with CommentDensityAvg := 0 } :=
  buildProjectMetrics_perm_except_density [c8FileA, c8FileB] [c8FileB, c8FileA]
    (List.Perm.swap c8FileB c8FileA [])

/-- Counterexample to C8 as stated: the three files with comment densities
`float64(0.1)`, `float64(0.2)`, `float64(0.3)` reversed are a permutation of
themselves in order, yet the aggregation yields different `ProjectMetrics`:
the `float64` accumulation rounds `(0.1+0.2)+0.3` to significand
`5404319552844596` but `(0.3+0.2)+0.1` to `5404319552844595`, so the two
`CommentDensityAvg` values differ. -/
theorem buildProjectMetrics_density_order_counterexample :
    ([c8dA, c8dB, c8dC] : List FileMetrics).Perm [c8dC, c8dB, c8dA] ∧
      buildProjectMetrics [c8dA, c8dB, c8dC] ≠ buildProjectMetrics [c8dC, c8dB, c8dA] :=
  ⟨(List.reverse_perm [c8dA, c8dB, c8dC]).symm, by with_unfolding_all decide⟩

/-! ## C7: the 95th-percentile index under binary64 arithmetic

`buildProjectReport` computes `idxP95 := int(0.95 * float64(len(sizes)-1))`.
The lemmas below bound the two roundings (the `int → float64` conversion and
the multiplication) and show the computed index agrees with the exact
`floor(0.95*(n-1))` for every realistic collection size (`n - 1 ≤ 2^48`),
while a concrete astronomically large collection separates the two. -/

lemma rat_lt_half_iff (r : ℚ) : r.num * 2 < (r.den : ℤ) ↔ r < 1 / 2 := by
  conv_rhs => rw [← Rat.num_div_den r]
  rw [div_lt_div_iff₀ (by exact_mod_cast r.pos) (by norm_num : (0:ℚ) < 2), one_mul]
  constructor <;> intro h <;> exact_mod_cast h

lemma rat_half_lt_iff (r : ℚ) : (r.den : ℤ) < r.num * 2 ↔ 1 / 2 < r := by
  conv_rhs => rw [← Rat.num_div_den r]
  rw [div_lt_div_iff₀ (by norm_num : (0:ℚ) < 2) (by exact_mod_cast r.pos), one_mul]
  constructor <;> intro h <;> exact_mod_cast h

lemma pow2z_eq (k : ℤ) : pow2z k = (2:ℚ) ^ k := by
  unfold pow2z
  by_cases h : 0 ≤ k
  · rw [if_pos h]
    push_cast
    rw [← zpow_natCast]
    congr 1
    omega
  · rw [if_neg h]
    push_cast
    rw [← zpow_natCast, ← zpow_neg]
    congr 1
    omega

lemma pow2z_pos (k : ℤ) : 0 < pow2z k := by
  rw [pow2z_eq]; positivity

lemma roundHalfEven_eq_of_abs_lt (q : ℚ) (k : ℤ) (h : |q - (k:ℚ)| < 1/2) :
    roundHalfEven q = k := by
  rw [abs_lt] at h
  obtain ⟨hl, hr⟩ := h
  rcases le_or_lt (k:ℚ) q with hk | hk
  · have hfl : ⌊q⌋ = k := by
      rw [Int.floor_eq_iff]
      constructor
      · exact hk
      · push_cast; linarith
    simp only [roundHalfEven]
    rw [hfl, if_pos ((rat_lt_half_iff _).mpr (by linarith))]
  · have hfl : ⌊q⌋ = k - 1 := by
      rw [Int.floor_eq_iff]
      constructor
      · push_cast; linarith
      · push_cast; linarith
    simp only [roundHalfEven]
    rw [hfl]
    have hgt : 1/2 < q - ((k - 1 : ℤ) : ℚ) := by push_cast; linarith
    rw [if_neg (by rw [rat_lt_half_iff]; linarith),
      if_pos ((rat_half_lt_iff _).mpr hgt)]
    omega

lemma abs_roundHalfEven_sub_le (q : ℚ) : |(roundHalfEven q : ℚ) - q| ≤ 1/2 := by
  have h0 : (↑⌊q⌋ : ℚ) ≤ q := Int.floor_le q
  have h1 : q < ↑⌊q⌋ + 1 := Int.lt_floor_add_one q
  simp only [roundHalfEven]
  split
  · next hc =>
    have := (rat_lt_half_iff _).mp hc
    rw [abs_le]
    constructor <;> push_cast <;> linarith
  · next hc =>
    have hge : ¬ (q - (⌊q⌋:ℚ) < 1/2) := by rw [← rat_lt_half_iff]; exact hc
    split
    · next hc2 =>
      have := (rat_half_lt_iff _).mp hc2
      rw [abs_le]
      constructor <;> push_cast <;> linarith
    · next hc2 =>
      have hle : ¬ (1/2 < q - (⌊q⌋:ℚ)) := by rw [← rat_half_lt_iff]; exact hc2
      have heq : q - (⌊q⌋:ℚ) = 1/2 := le_antisymm (not_lt.mp hle) (not_lt.mp hge)
      split <;> (rw [abs_le]; constructor <;> push_cast <;> linarith)

lemma floatRN_sub_abs_le (q : ℚ) (hq : 0 < q) :
    |floatRN q - q| ≤ pow2z (intLog2 q - 53) := by
  have hnum : 0 < q.num := Rat.num_pos.mpr hq
  unfold floatRN
  rw [if_neg (by omega)]
  show |(roundHalfEven (q * pow2z (52 - intLog2 q)) : ℚ) * pow2z (intLog2 q - 52) - q| ≤
    pow2z (intLog2 q - 53)
  have hgpos : (0:ℚ) < pow2z (intLog2 q - 52) := pow2z_pos _
  have hmul : pow2z (52 - intLog2 q) * pow2z (intLog2 q - 52) = 1 := by
    rw [pow2z_eq, pow2z_eq, ← zpow_add₀ (by norm_num : (2:ℚ) ≠ 0)]
    norm_num
  have hxg : q * pow2z (52 - intLog2 q) * pow2z (intLog2 q - 52) = q := by
    rw [mul_assoc, hmul, mul_one]
  have hsplit2 : (roundHalfEven (q * pow2z (52 - intLog2 q)) : ℚ) * pow2z (intLog2 q - 52) - q =
      ((roundHalfEven (q * pow2z (52 - intLog2 q)) : ℚ) - q * pow2z (52 - intLog2 q)) *
        pow2z (intLog2 q - 52) := by
    rw [sub_mul, hxg]
  calc |(roundHalfEven (q * pow2z (52 - intLog2 q)) : ℚ) * pow2z (intLog2 q - 52) - q|
      = |(roundHalfEven (q * pow2z (52 - intLog2 q)) : ℚ) - q * pow2z (52 - intLog2 q)| *
          pow2z (intLog2 q - 52) := by
        rw [hsplit2, abs_mul, abs_of_pos hgpos]
    _ ≤ (1/2) * pow2z (intLog2 q - 52) := by
        apply mul_le_mul_of_nonneg_right (abs_roundHalfEven_sub_le _) (le_of_lt hgpos)
    _ = pow2z (intLog2 q - 53) := by
        rw [pow2z_eq, pow2z_eq]
        rw [show intLog2 q - 53 = (intLog2 q - 52) + (-1) by ring]
        rw [zpow_add₀ (by norm_num : (2:ℚ) ≠ 0)]
        norm_num
        ring

lemma floatRN_eq_int_of_close (q : ℚ) (hq : 0 < q) (K : ℤ)
    (he : 0 ≤ 52 - intLog2 q)
    (h : |q - (K:ℚ)| < pow2z (intLog2 q - 53)) :
    floatRN q = (K : ℚ) := by
  have hnum : 0 < q.num := Rat.num_pos.mpr hq
  unfold floatRN
  rw [if_neg (by omega)]
  show (roundHalfEven (q * pow2z (52 - intLog2 q)) : ℚ) * pow2z (intLog2 q - 52) = (K:ℚ)
  have hgpos : (0:ℚ) < pow2z (52 - intLog2 q) := pow2z_pos _
  have hK : (K:ℚ) * pow2z (52 - intLog2 q) = ((K * 2 ^ (52 - intLog2 q).toNat : ℤ) : ℚ) := by
    unfold pow2z
    rw [if_pos he]
    push_cast
    ring
  have hclose : |q * pow2z (52 - intLog2 q) - ((K * 2 ^ (52 - intLog2 q).toNat : ℤ) : ℚ)| < 1/2 := by
    rw [← hK, ← sub_mul, abs_mul, abs_of_pos hgpos]
    calc |q - (K:ℚ)| * pow2z (52 - intLog2 q)
        < pow2z (intLog2 q - 53) * pow2z (52 - intLog2 q) := by
          apply mul_lt_mul_of_pos_right h hgpos
      _ = 1/2 := by
          rw [pow2z_eq, pow2z_eq, ← zpow_add₀ (by norm_num : (2:ℚ) ≠ 0)]
          norm_num
  rw [roundHalfEven_eq_of_abs_lt _ _ hclose, ← hK, mul_assoc]
  have hmul : pow2z (52 - intLog2 q) * pow2z (intLog2 q - 52) = 1 := by
    rw [pow2z_eq, pow2z_eq, ← zpow_add₀ (by norm_num : (2:ℚ) ≠ 0)]
    norm_num
  rw [hmul, mul_one]

lemma log2fuel_window : ∀ (f m : ℕ), 1 ≤ m → m < 2 ^ f →
    2 ^ log2fuel f m ≤ m ∧ m < 2 ^ (log2fuel f m + 1) := by
  intro f
  induction f with
  | zero =>
    intro m h1 h2
    norm_num at h2
    omega
  | succ f ih =>
    intro m h1 h2
    simp only [log2fuel]
    by_cases hm : 2 ≤ m
    · rw [if_pos hm]
      have h1' : 1 ≤ m / 2 := by omega
      have h2' : m / 2 < 2 ^ f := by
        have hpow : 2 ^ (f + 1) = 2 * 2 ^ f := by ring
        omega
      obtain ⟨lo, hi⟩ := ih (m / 2) h1' h2'
      have e1 : 2 ^ (log2fuel f (m / 2) + 1) = 2 * 2 ^ log2fuel f (m / 2) := by ring
      have e2 : 2 ^ (log2fuel f (m / 2) + 1 + 1) = 2 * 2 ^ (log2fuel f (m / 2) + 1) := by ring
      omega
    · rw [if_neg hm]
      norm_num
      omega

lemma intLog2_window (q : ℚ) (h1 : 1 ≤ q) (hq : (⌊q⌋).toNat < 2 ^ 1200) :
    pow2z (intLog2 q) ≤ q ∧ q < pow2z (intLog2 q + 1) := by
  have hden : (q.den : ℤ) ≤ q.num := by
    have h2 : (1:ℚ) ≤ (q.num:ℚ) / (q.den:ℚ) := by rw [Rat.num_div_den]; exact h1
    rw [le_div_iff₀ (by exact_mod_cast q.pos), one_mul] at h2
    exact_mod_cast h2
  have hfl : 1 ≤ ⌊q⌋ := Int.le_floor.mpr (by exact_mod_cast h1)
  have ha1 : 1 ≤ (⌊q⌋).toNat := by omega
  obtain ⟨lo, hi⟩ := log2fuel_window 1200 (⌊q⌋).toNat ha1 hq
  unfold intLog2
  rw [if_pos hden]
  have key : (((⌊q⌋).toNat : ℤ) : ℚ) = ((⌊q⌋ : ℤ) : ℚ) := by
    congr 1
    omega
  constructor
  · rw [pow2z_eq, zpow_natCast]
    calc ((2:ℚ) ^ log2fuel 1200 (⌊q⌋).toNat)
        ≤ (((⌊q⌋).toNat : ℕ) : ℚ) := by exact_mod_cast lo
      _ = ((⌊q⌋ : ℤ) : ℚ) := by push_cast at key ⊢; exact key
      _ ≤ q := Int.floor_le q
  · rw [pow2z_eq]
    rw [show ((log2fuel 1200 (⌊q⌋).toNat : ℤ) + 1) = ((log2fuel 1200 (⌊q⌋).toNat + 1 : ℕ) : ℤ) by push_cast; ring]
    rw [zpow_natCast]
    calc q < ((⌊q⌋ : ℤ) : ℚ) + 1 := Int.lt_floor_add_one q
      _ = (((⌊q⌋).toNat : ℕ) : ℚ) + 1 := by push_cast at key ⊢; rw [key]
      _ ≤ ((2:ℚ) ^ (log2fuel 1200 (⌊q⌋).toNat + 1)) := by
          have : ((⌊q⌋).toNat + 1 : ℕ) ≤ 2 ^ (log2fuel 1200 (⌊q⌋).toNat + 1) := hi
          exact_mod_cast this

lemma floatRN_natCast (m : ℕ) (h1 : 1 ≤ m) (hb : m ≤ 2 ^ 52) :
    floatRN (m:ℚ) = (m:ℚ) := by
  have h1q : (1:ℚ) ≤ (m:ℚ) := by exact_mod_cast h1
  have hflm : ⌊(m:ℚ)⌋ = (m:ℤ) := Int.floor_natCast m
  have hwin := intLog2_window (m:ℚ) h1q (by
    rw [hflm]
    have : ((m:ℤ)).toNat = m := by omega
    rw [this]
    calc m ≤ 2 ^ 52 := hb
      _ < 2 ^ 1200 := by norm_num)
  obtain ⟨lo, hi⟩ := hwin
  have hepos : 0 ≤ intLog2 (m:ℚ) := by
    by_contra hneg
    push_neg at hneg
    have : pow2z (intLog2 (m:ℚ) + 1) ≤ 1 := by
      rw [pow2z_eq]
      apply zpow_le_one_of_nonpos₀ (by norm_num : (1:ℚ) ≤ 2)
      omega
    linarith
  have hele : intLog2 (m:ℚ) ≤ 52 := by
    by_contra hgt
    push_neg at hgt
    have h53 : (53:ℤ) ≤ intLog2 (m:ℚ) := by omega
    have : (2:ℚ) ^ (53:ℤ) ≤ pow2z (intLog2 (m:ℚ)) := by
      rw [pow2z_eq]
      exact zpow_le_zpow_right₀ (by norm_num) h53
    have hm53 : (m:ℚ) ≤ (2:ℚ) ^ (52:ℤ) := by
      calc (m:ℚ) ≤ ((2 ^ 52 : ℕ) : ℚ) := by exact_mod_cast hb
        _ = (2:ℚ) ^ (52:ℤ) := by
            rw [show (52:ℤ) = ((52:ℕ):ℤ) from rfl, zpow_natCast]
            push_cast
            ring
    have h2 : (2:ℚ) ^ (53:ℤ) = 2 * (2:ℚ) ^ (52:ℤ) := by
      rw [show (53:ℤ) = 52 + 1 by ring, zpow_add_one₀ (by norm_num : (2:ℚ) ≠ 0)]
      ring
    have hp52 : (0:ℚ) < (2:ℚ) ^ (52:ℤ) := by positivity
    linarith
  apply floatRN_eq_int_of_close (m:ℚ) (by exact_mod_cast h1) (m:ℤ) (by omega)
  rw [show ((m:ℤ):ℚ) = (m:ℚ) by push_cast; ring, sub_self, abs_zero]
  exact pow2z_pos _

lemma pow48cast : ((2^48 : ℕ) : ℚ) = (2:ℚ)^(48:ℕ) := by push_cast; ring

lemma f64_p95_core (m : ℕ) (h2 : 2 ≤ m) (hb : m ≤ 2 ^ 48) :
    f64toInt (floatRN (float095 * (m:ℚ))) = ((19 * m / 20 : ℕ) : ℤ) := by
  set K := 19 * m / 20 with hK
  set s := 19 * m % 20 with hs
  have hKs : 19 * m = 20 * K + s := (Nat.div_add_mod (19 * m) 20).symm
  have hs20 : s < 20 := Nat.mod_lt _ (by norm_num)
  have hf : float095 = 19/20 - 1/(5 * 2^52) := by
    refine Rat.ext ?_ ?_ <;> with_unfolding_all decide
  set p := float095 * (m:ℚ) with hp
  have hcast : (19:ℚ) * m = 20 * K + s := by exact_mod_cast hKs
  have h19 : (19/20 : ℚ) * (m:ℚ) = (K:ℚ) + (s:ℚ)/20 := by
    field_simp
    linarith [hcast]
  have hps : p = (K:ℚ) + (s:ℚ)/20 - (m:ℚ)/(5 * 2^52) := by
    rw [hp, hf, sub_mul, h19]
    ring
  have hm48 : (m:ℚ) ≤ (2:ℚ)^(48:ℕ) := by exact_mod_cast hb
  have hmq2 : (2:ℚ) ≤ (m:ℚ) := by exact_mod_cast h2
  have h45 : (4/5 : ℚ) ≤ float095 := by with_unfolding_all decide
  have hlt1 : float095 < 1 := by with_unfolding_all decide
  have hppos4 : (4/5:ℚ) * m ≤ p := by
    rw [hp]
    exact mul_le_mul_of_nonneg_right h45 (by positivity)
  have h1p : (1:ℚ) ≤ p := by linarith
  have hpltm : p < (m:ℚ) := by
    rw [hp]
    calc float095 * m < 1 * m := mul_lt_mul_of_pos_right hlt1 (by linarith)
      _ = m := one_mul _
  have hppos : (0:ℚ) < p := by linarith
  have hfloorNat : (⌊p⌋).toNat < 2 ^ 1200 := by
    have h1 : ⌊p⌋ < ((2^48 : ℕ) : ℤ) := by
      rw [Int.floor_lt]
      calc p < (m:ℚ) := hpltm
        _ ≤ (2:ℚ)^(48:ℕ) := hm48
        _ = ((2^48:ℕ):ℚ) := pow48cast.symm
        _ = (((2^48:ℕ):ℤ):ℚ) := by push_cast; ring
    have h3 : (⌊p⌋).toNat < 2^48 := by omega
    calc (⌊p⌋).toNat < 2^48 := h3
      _ < 2^1200 := Nat.pow_lt_pow_right (by norm_num) (by norm_num)
  obtain ⟨hlow, hhigh⟩ := intLog2_window p h1p hfloorNat
  set e := intLog2 p with he
  have he0 : 0 ≤ e := by
    by_contra hneg
    push_neg at hneg
    have : pow2z (e+1) ≤ 1 := by
      rw [pow2z_eq]
      apply zpow_le_one_of_nonpos₀ (by norm_num) (by omega)
    linarith
  have he47 : e ≤ 47 := by
    by_contra hgt
    push_neg at hgt
    have h48 : (2:ℚ)^(48:ℤ) ≤ pow2z e := by
      rw [pow2z_eq]
      exact zpow_le_zpow_right₀ (by norm_num) (by omega)
    have h48' : (2:ℚ)^(48:ℤ) = (2:ℚ)^(48:ℕ) := by
      rw [show (48:ℤ) = ((48:ℕ):ℤ) from rfl, zpow_natCast]
    rw [h48'] at h48
    linarith
  have hgrid : pow2z (e - 53) ≤ 1/64 := by
    have hmono : pow2z (e-53) ≤ pow2z (-6) := by
      rw [pow2z_eq, pow2z_eq]
      exact zpow_le_zpow_right₀ (by norm_num) (by omega)
    have h6 : pow2z (-6 : ℤ) = 1/64 := by rw [pow2z_eq]; norm_num
    linarith
  rcases Nat.eq_zero_or_pos s with hs0 | hs1
  · -- s = 0: p sits just below the integer K, and K is on the rounding grid
    have hsq : (s:ℚ) = 0 := by exact_mod_cast hs0
    have h2e : (m:ℚ) < 5/2 * pow2z e := by
      have hp2 : pow2z (e+1) = 2 * pow2z e := by
        rw [pow2z_eq, pow2z_eq, zpow_add_one₀ (by norm_num : (2:ℚ) ≠ 0)]
        ring
      rw [hp2] at hhigh
      linarith
    have hclose : |p - (K:ℚ)| < pow2z (e - 53) := by
      have hd : p - (K:ℚ) = -((m:ℚ)/(5*2^52)) := by rw [hps, hsq]; ring
      rw [hd, abs_neg, abs_of_pos (by positivity)]
      have h53 : pow2z (e - 53) = pow2z e / (2:ℚ)^(53:ℕ) := by
        rw [pow2z_eq, pow2z_eq, zpow_sub₀ (by norm_num : (2:ℚ) ≠ 0)]
        rw [show (53:ℤ) = ((53:ℕ):ℤ) from rfl, zpow_natCast]
      rw [h53, div_lt_div_iff₀ (by positivity) (by positivity)]
      have hg := pow2z_pos e
      norm_num
      linarith [h2e]
    have hhit : floatRN p = (((K:ℕ):ℤ):ℚ) :=
      floatRN_eq_int_of_close p hppos ((K:ℕ):ℤ) (by omega)
        (by push_cast at hclose ⊢; exact hclose)
    rw [hhit]
    unfold f64toInt
    rw [if_pos (by rw [Rat.num_intCast]; omega), Int.floor_intCast]
  · -- 1 ≤ s: p is strictly inside (K, K+1) with margin above the rounding error
    have hq1 : (1:ℚ) ≤ (s:ℚ) := by exact_mod_cast hs1
    have hq19 : (s:ℚ) ≤ 19 := by exact_mod_cast (by omega : s ≤ 19)
    have hmdiv : (m:ℚ)/(5*2^52) ≤ 1/80 := by
      have hstep : (m:ℚ)/(5*2^52) ≤ ((2:ℚ)^(48:ℕ))/(5*2^52) := by gcongr
      have heq : ((2:ℚ)^(48:ℕ))/(5*2^52) = 1/80 := by norm_num
      linarith
    have hmdiv0 : (0:ℚ) ≤ (m:ℚ)/(5*2^52) := by positivity
    have habs := floatRN_sub_abs_le p hppos
    rw [← he] at habs
    have hb1 := abs_le.mp (le_trans habs hgrid)
    have hKfl : ⌊floatRN p⌋ = ((K:ℕ):ℤ) := by
      rw [Int.floor_eq_iff]
      constructor
      · push_cast
        linarith [hb1.1, hps, hq1, hmdiv]
      · push_cast
        linarith [hb1.2, hps, hq19, hmdiv0]
    have h0le : (0:ℚ) ≤ floatRN p := by
      have hfle : (((K:ℕ):ℤ):ℚ) ≤ floatRN p := by
        rw [← hKfl]
        exact Int.floor_le _
      have : (0:ℚ) ≤ (((K:ℕ):ℤ):ℚ) := by positivity
      linarith
    unfold f64toInt
    rw [if_pos (Rat.num_nonneg.mpr h0le), hKfl]

/-- The computed index agrees with the exact `floor(0.95*(n-1))` for every
`n` with `n - 1 ≤ 2^48` (the clamps never fire there). -/
lemma idxP95_eq_exact (n : ℕ) (h0 : 0 < n) (hbn : n - 1 ≤ 2 ^ 48) :
    idxP95 n = ((19 * (n - 1) / 20 : ℕ) : ℤ) := by
  obtain ⟨m, rfl⟩ : ∃ m, n = m + 1 := ⟨n - 1, by omega⟩
  simp only [Nat.add_sub_cancel] at hbn ⊢
  rcases Nat.lt_or_ge m 2 with hm | hm
  · interval_cases m
    · with_unfolding_all decide
    · with_unfolding_all decide
  · have hr : floatRN ((m:ℚ)) = (m:ℚ) :=
      floatRN_natCast m (by omega) (le_trans hbn (by norm_num))
    have hcore := f64_p95_core m hm hbn
    simp only [idxP95, Nat.add_sub_cancel]
    rw [hr, hcore]
    rw [if_neg (by omega)]
    rw [if_neg (by push_cast; omega)]

set_option maxRecDepth 2000 in
/-- C7 (with the size bound the counterexample forces): for every collected
file set whose flattened function count `n` is positive and at most
`2^48 + 1`, the reported 95th-percentile function size is exactly the
element at index `floor(0.95*(n-1)) = 19*(n-1)/20` of the ascending-sorted
size list, despite the index being computed with binary64 multiplication
and truncation. -/
theorem p95_reported_at_exact_index (files : List FileMetrics)
    (h0 : 0 < ((allFns files).map (fun fn => fn.NLOC)).length)
    (hbn : ((allFns files).map (fun fn => fn.NLOC)).length - 1 ≤ 2 ^ 48) :
    (buildProjectMetrics files).P95FunctionSize =
      (((((allFns files).map (fun fn => fn.NLOC)).insertionSort (· ≤ ·)).getD
        (19 * (((allFns files).map (fun fn => fn.NLOC)).length - 1) / 20) 0 : ℕ) : ℚ) := by
  simp only [buildProjectMetrics]
  rw [if_pos h0]
  rw [idxP95_eq_exact _ h0 hbn]
  congr 1

/-- Witness for C7 at a concrete input: the reported 95th percentile of the
sizes 5, 2, 9 is the element at exact index 1 of `[2, 5, 9]`, namely 5. -/
theorem p95_reported_at_exact_index_witness :
    (buildProjectMetrics [c7WitFile]).P95FunctionSize = 5 ∧
      (((((allFns [c7WitFile]).map (fun fn => fn.NLOC)).insertionSort (· ≤ ·)).getD
        (19 * (((allFns [c7WitFile]).map (fun fn => fn.NLOC)).length - 1) / 20) 0 : ℕ) : ℚ) = 5 := by
  have h := p95_reported_at_exact_index [c7WitFile]
    (by with_unfolding_all decide) (by with_unfolding_all decide)
  constructor
  · rw [h]
    with_unfolding_all decide
  · with_unfolding_all decide

set_option maxRecDepth 2000 in
/-- Counterexample to C7 as stated (no size bound): for a collection of
`n = 4800000000000002` function sizes, `int(0.95*float64(n-1))` is
`4560000000000001` but `floor(0.95*(n-1)) = 4560000000000000`, and the two
indices select different elements of the sorted size list, so the reported
95th percentile is NOT the element at the exact index. -/
theorem p95_float_index_counterexample :
    (buildProjectMetrics [c7File]).P95FunctionSize ≠
      (((((allFns [c7File]).map (fun fn => fn.NLOC)).insertionSort (· ≤ ·)).getD
        (19 * (((allFns [c7File]).map (fun fn => fn.NLOC)).length - 1) / 20) 0 : ℕ) : ℚ) := by
  have hsizes : (allFns [c7File]).map (fun fn => fn.NLOC) =
      List.replicate c7A 0 ++ List.replicate c7B 1 := by
    simp [allFns, c7File, List.map_append, List.map_replicate, c7Fn0, c7Fn1]
  have hlen : ((allFns [c7File]).map (fun fn => fn.NLOC)).length = c7A + c7B := by
    rw [hsizes]
    simp
  have hsorted : ((allFns [c7File]).map (fun fn => fn.NLOC)).insertionSort (· ≤ ·) =
      List.replicate c7A 0 ++ List.replicate c7B 1 := by
    rw [hsizes]
    apply List.eq_of_perm_of_sorted (List.perm_insertionSort _ _)
      (List.sorted_insertionSort _ _)
    rw [List.Sorted, List.pairwise_append]
    refine ⟨List.pairwise_replicate.mpr (Or.inr le_rfl),
      List.pairwise_replicate.mpr (Or.inr le_rfl), ?_⟩
    intro x hx y hy
    rw [List.eq_of_mem_replicate hx, List.eq_of_mem_replicate hy]
    omega
  have hAB : c7A + c7B = 4800000000000002 := by norm_num [c7A, c7B]
  have hidxF : idxP95 (c7A + c7B) = 4560000000000001 := by
    rw [hAB]
    with_unfolding_all decide
  have hexact : 19 * (c7A + c7B - 1) / 20 = 4560000000000000 := by
    rw [hAB]
  have hget1 : (List.replicate c7A (0:ℕ) ++ List.replicate c7B 1).getD 4560000000000001 0 = 1 := by
    rw [List.getD_eq_getElem?_getD]
    rw [List.getElem?_append_right (by rw [List.length_replicate]; norm_num [c7A])]
    rw [List.length_replicate]
    rw [List.getElem?_replicate]
    rw [if_pos (by norm_num [c7A, c7B])]
    rfl
  have hget0 : (List.replicate c7A (0:ℕ) ++ List.replicate c7B 1).getD 4560000000000000 0 = 0 := by
    rw [List.getD_eq_getElem?_getD]
    rw [List.getElem?_append_left (by rw [List.length_replicate]; norm_num [c7A])]
    rw [List.getElem?_replicate, if_pos (by norm_num [c7A])]
    rfl
  simp only [buildProjectMetrics]
  rw [hsorted, hlen]
  rw [if_pos (by norm_num [c7A, c7B] : 0 < c7A + c7B)]
  rw [hidxF, hexact]
  rw [show ((4560000000000001:ℤ)).toNat = 4560000000000001 from rfl]
  rw [hget1, hget0]
  norm_num

end CodeAudit
